import Mathlib

/-
Verification of the terminal-emulator library (james4k/terminal).

The development shallowly embeds the Go sources:
  * csi.go       : the CSI accumulator (csiEscape) and the handleCSI dispatcher
  * str.go       : the STR accumulator (strEscape) and handleSTR
  * the VT core  : the screen buffer, cursor, mode flags, grid primitives,
                   Resize, reset, Write (byte feeding with UTF-8 decoding)
  * the parser   : the state-function dispatcher (parse, parseEsc, parseEscCSI,
                   parseEscStr, parseEscStrEnd, parseEscAltCharset, parseEscTest)

Go integers are modelled as Lean Int (64-bit overflow never comes into play at
the magnitudes the screen model manipulates); Go byte/uint16 values as Nat.
Go slices are modelled as lists.  Convention for slice accesses: a Go read
l[i] is modelled by lookupD/goGetD (returning a default out of range) and a
Go write l[i] = v by setAt/goSet (leaving the list unchanged out of range);
every call site reached from the public surface is shown to be in bounds on
reachable states, where the Go code cannot panic.  The public Cell accessor,
whose out-of-range panic is observable behaviour, is modelled with Option,
none standing for the panic.

Single-bit masks of the Go bit sets (glyph attribute bits, cursor state bits,
mode flags) are modelled as named Bool fields of structures; each Go mask
operation touches fixed bits, so every |=, &^=, ^= is a field update.
-/

namespace Terminal

/-! ## Go slice primitives -/

/-- Read element `n` of a list, with default; models a Go slice read. -/
def lookupD {α : Type} : List α → Nat → α → α
  | [], _, d => d
  | a :: _, 0, _ => a
  | _ :: as, n + 1, d => lookupD as n d

/-- Read element `n` of a list as an Option; `none` models the Go panic. -/
def lookupO {α : Type} : List α → Nat → Option α
  | [], _ => none
  | a :: _, 0 => some a
  | _ :: as, n + 1 => lookupO as n

/-- Write element `n` of a list; out of range leaves the list unchanged
(the Go panic cannot occur at in-bounds call sites). -/
def setAt {α : Type} : List α → Nat → α → List α
  | [], _, _ => []
  | _ :: as, 0, b => b :: as
  | a :: as, n + 1, b => a :: setAt as n b

/-- Go slice read with an Int index (a negative index panics in Go). -/
def goGetD {α : Type} (l : List α) (i : Int) (d : α) : α :=
  if i < 0 then d else lookupD l i.toNat d

/-- Go slice read with an Int index, Option-valued. -/
def goGet {α : Type} (l : List α) (i : Int) : Option α :=
  if i < 0 then none else lookupO l i.toNat

/-- Go slice write with an Int index. -/
def goSet {α : Type} (l : List α) (i : Int) (a : α) : List α :=
  if i < 0 then l else setAt l i.toNat a

/-- Go copy(dst, src): the first min(len dst, len src) elements come from
src, the rest of dst is kept. -/
def goCopy {α : Type} : List α → List α → List α
  | dst, [] => dst
  | [], _ => []
  | _ :: ds, s :: ss => s :: goCopy ds ss

/-- Go slice expression l[a:b] (callers keep 0 ≤ a ≤ b ≤ len l). -/
def goSlice {α : Type} (l : List α) (a b : Int) : List α :=
  (l.drop a.toNat).take (b - a).toNat

/-- Map a function of the (Int) index over a list, starting at index i;
models an indexed Go for-loop writing every element. -/
def idxGo {α : Type} (f : Int → α → α) : Int → List α → List α
  | _, [] => []
  | i, a :: as => f i a :: idxGo f (i + 1) as

/-- idxGo starting at index 0. -/
def idxMap {α : Type} (f : Int → α → α) (l : List α) : List α :=
  idxGo f 0 l

/-- Ascending for-loop: forUp f n a = f (n-1) (... (f 1 (f 0 a))). -/
def forUp {α : Type} (f : Nat → α → α) : Nat → α → α
  | 0, a => a
  | n + 1, a => f n (forUp f n a)

/-- Go clamp from term.go. -/
def clamp (val lo hi : Int) : Int :=
  if val < lo then lo else if val > hi then hi else val

/-- Go between from term.go. -/
def between (val lo hi : Int) : Bool :=
  !(val < lo || val > hi)

/-! ## Data model -/

/-- The glyph attribute bit set (attrReverse, attrUnderline, attrBold,
attrGfx, attrItalic, attrBlink, attrWrap), one Bool per bit. -/
structure GAttr where
  rev : Bool
  underline : Bool
  bold : Bool
  gfx : Bool
  italic : Bool
  blink : Bool
  wrap : Bool
deriving DecidableEq, Repr

def GAttr.zero : GAttr := ⟨false, false, false, false, false, false, false⟩

/-- glyph: a screen cell (code point, attribute bits, fg and bg color). -/
structure Glyph where
  c : Int
  mode : GAttr
  fg : Nat
  bg : Nat
deriving DecidableEq, Repr

def Glyph.zero : Glyph := ⟨0, GAttr.zero, 0, 0⟩

/-- cursor: the cursor state; wrapNext and origin are the bits of the Go
state byte (cursorWrapNext, cursorOrigin). -/
structure Cursor where
  attr : Glyph
  x : Int
  y : Int
  wrapNext : Bool
  origin : Bool
deriving DecidableEq, Repr

def Cursor.zero : Cursor := ⟨Glyph.zero, 0, 0, false, false⟩

/-- The terminal mode flag bit set, one Bool per ModeFlag bit. -/
structure Mode where
  wrap : Bool
  insert : Bool
  appKeypad : Bool
  altScreen : Bool
  crlf : Bool
  mouseButton : Bool
  mouseMotion : Bool
  rev : Bool
  keyboardLock : Bool
  hide : Bool
  echo : Bool
  appCursor : Bool
  mouseSgr : Bool
  eightBit : Bool
  blink : Bool
  fblink : Bool
  focus : Bool
  mouseX10 : Bool
  mouseMany : Bool
deriving DecidableEq, Repr

def Mode.zero : Mode :=
  ⟨false, false, false, false, false, false, false, false, false, false,
   false, false, false, false, false, false, false, false, false⟩

/-- csiEscape: the CSI accumulator of csi.go.  buf holds raw bytes, args the
decoded parameters, mode the final byte, priv the private marker. -/
structure CsiEscape where
  buf : List Nat
  args : List Int
  mode : Nat
  priv : Bool
deriving DecidableEq, Repr

def CsiEscape.zero : CsiEscape := ⟨[], [], 0, false⟩

/-- strEscape: the STR accumulator of str.go. -/
structure StrEscape where
  typ : Int
  buf : List Int
  args : List (List Int)
deriving DecidableEq, Repr

def StrEscape.zero : StrEscape := ⟨0, [], []⟩

/-- The dispatcher state: in the Go source a state-function pointer; here
the tag naming which of the seven state functions t.state holds. -/
inductive TState where
  | ground
  | escape
  | escCSI
  | escStr
  | escStrEnd
  | escAltCharset
  | escTest
deriving DecidableEq, Repr

/-- The terminal (the VT struct): screen buffers, cursor, scroll limits,
mode flags, parser state and accumulators.  The pty handle, the mutex, the
numlock field (written once, never read) and the Stderr logging sink have no
effect on the screen state and are omitted. -/
structure Term where
  cols : Int
  rows : Int
  lines : List (List Glyph)
  altLines : List (List Glyph)
  dirty : List Bool
  cur : Cursor
  curSaved : Cursor
  top : Int
  bottom : Int
  mode : Mode
  state : TState
  str : StrEscape
  csi : CsiEscape
  tabs : List Bool
deriving DecidableEq, Repr

/-- The zero Term value (the Go &VT{...} before any initialization). -/
def Term.zero : Term :=
  { cols := 0, rows := 0, lines := [], altLines := [], dirty := []
    cur := Cursor.zero, curSaved := Cursor.zero, top := 0, bottom := 0
    mode := Mode.zero, state := TState.ground
    str := StrEscape.zero, csi := CsiEscape.zero, tabs := [] }

/-- DefaultFG sentinel color (0xff80 + 16). -/
def DefaultFG : Nat := 0xff90

/-- DefaultBG sentinel color (0xff80 + 17). -/
def DefaultBG : Nat := 0xff91

/-! ## Grid primitives -/

/-- The 62-entry line-drawing table (gfxCharTable), keyed by c - 0x41; the
code points of the glyphs in the Go rune literals; 0 means pass through. -/
def gfxCharTable : List Int :=
  [0x2191, 0x2193, 0x2192, 0x2190, 0x2588, 0x259A, 0x2603,
   0, 0, 0, 0, 0, 0, 0, 0,
   0, 0, 0, 0, 0, 0, 0, 0,
   0, 0, 0, 0, 0, 0, 0, 0x20,
   0x25C6, 0x2592, 0x2409, 0x240C, 0x240D, 0x240A, 0xB0, 0xB1,
   0x2424, 0x240B, 0x2518, 0x2510, 0x250C, 0x2514, 0x253C, 0x23BA,
   0x23BB, 0x2500, 0x23BC, 0x23BD, 0x251C, 0x2524, 0x2534, 0x252C,
   0x2502, 0x2264, 0x2265, 0x3C0, 0x2260, 0xA3, 0xB7]

/-- gfxCharTable[c-0x41] for an in-range code point. -/
def gfxTableAt (c : Int) : Int :=
  goGetD gfxCharTable (c - 0x41) 0

/-- setChar (the VT variant): graphics-charset remap, dirty flag, copy the
attribute template into the cell and overwrite the code point; then the
bright-bold upgrade, applied unconditionally whenever bold is set and fg < 8
(the options.BrightBold gate is commented out in the source). -/
def setChar (t : Term) (c : Int) (attr : Glyph) (x y : Int) : Term :=
  let c1 := if attr.mode.gfx ∧ 0x41 ≤ c ∧ c ≤ 0x7E ∧ gfxTableAt c ≠ 0
            then gfxTableAt c else c
  let cell0 : Glyph := { attr with c := c1 }
  let cell := if attr.mode.bold ∧ attr.fg < 8
              then { cell0 with fg := attr.fg + 8 } else cell0
  { t with dirty := goSet t.dirty y true
           lines := goSet t.lines y (goSet (goGetD t.lines y []) x cell) }

/-- setChar as in the term.go variant: identical except that no bright-bold
upgrade exists there. -/
def setCharTermVariant (t : Term) (c : Int) (attr : Glyph) (x y : Int) : Term :=
  let c1 := if attr.mode.gfx ∧ 0x41 ≤ c ∧ c ≤ 0x7E ∧ gfxTableAt c ≠ 0
            then gfxTableAt c else c
  let cell : Glyph := { attr with c := c1 }
  { t with dirty := goSet t.dirty y true
           lines := goSet t.lines y (goSet (goGetD t.lines y []) x cell) }

/-- moveTo: clamp the destination to the column range and to the row range
(the scroll region under origin mode), clear wrapNext, move the cursor. -/
def moveTo (t : Term) (x y : Int) : Term :=
  let miny := if t.cur.origin then t.top else 0
  let maxy := if t.cur.origin then t.bottom else t.rows - 1
  let x1 := clamp x 0 (t.cols - 1)
  let y1 := clamp y miny maxy
  { t with cur := { t.cur with x := x1, y := y1, wrapNext := false } }

/-- moveAbsTo: absolute move, offset by the scroll top under origin mode. -/
def moveAbsTo (t : Term) (x y : Int) : Term :=
  moveTo t x (if t.cur.origin then y + t.top else y)

/-- saveCursor (DECSC). -/
def saveCursor (t : Term) : Term :=
  { t with curSaved := t.cur }

/-- restoreCursor (DECRC): restore the saved cursor, then moveTo it. -/
def restoreCursor (t : Term) : Term :=
  let t1 := { t with cur := t.curSaved }
  moveTo t1 t1.cur.x t1.cur.y

/-- clear: order the corners, clamp the rectangle to the screen, blank every
cell in it with the current attribute and a space, mark the rows dirty. -/
def clear (t : Term) (x0 y0 x1 y1 : Int) : Term :=
  let p := if x0 > x1 then (x1, x0) else (x0, x1)
  let q := if y0 > y1 then (y1, y0) else (y0, y1)
  let a := clamp p.1 0 (t.cols - 1)
  let b := clamp p.2 0 (t.cols - 1)
  let c := clamp q.1 0 (t.rows - 1)
  let d := clamp q.2 0 (t.rows - 1)
  let blank : Glyph := { t.cur.attr with c := 0x20 }
  { t with
    dirty := idxMap (fun y v => if c ≤ y ∧ y ≤ d then true else v) t.dirty
    lines := idxMap (fun y row =>
      if c ≤ y ∧ y ≤ d then
        idxMap (fun x g => if a ≤ x ∧ x ≤ b then blank else g) row
      else row) t.lines }

/-- clearAll. -/
def clearAll (t : Term) : Term :=
  clear t 0 0 (t.cols - 1) (t.rows - 1)

/-- dirtyAll: mark rows 0..rows-1 dirty. -/
def dirtyAll (t : Term) : Term :=
  { t with dirty := idxMap (fun y v => if y < t.rows then true else v) t.dirty }

/-- swapScreen: exchange the two grids, toggle the alt-screen flag. -/
def swapScreen (t : Term) : Term :=
  dirtyAll { t with lines := t.altLines, altLines := t.lines
                    mode := { t.mode with altScreen := !t.mode.altScreen } }

/-- setScroll: clamp both limits to the row range and order them. -/
def setScroll (t : Term) (top bottom : Int) : Term :=
  let a := clamp top 0 (t.rows - 1)
  let b := clamp bottom 0 (t.rows - 1)
  let p := if a > b then (b, a) else (a, b)
  { t with top := p.1, bottom := p.2 }

/-- One iteration of the scroll loops: swap rows i and i+n, dirty both. -/
def scrollStep (t : Term) (i n : Int) : Term :=
  let ra := goGetD t.lines i []
  let rb := goGetD t.lines (i + n) []
  { t with lines := goSet (goSet t.lines i rb) (i + n) ra
           dirty := goSet (goSet t.dirty i true) (i + n) true }

/-- scrollUp: clamp n to the region size, blank the top n rows of the
region, then rotate rows upward (for i = orig .. bottom-n, swap i, i+n). -/
def scrollUp (t : Term) (orig n0 : Int) : Term :=
  let n := clamp n0 0 (t.bottom - orig + 1)
  let t1 := clear t 0 orig (t.cols - 1) (orig + n - 1)
  forUp (fun j s => scrollStep s (orig + j) n) (t1.bottom - n - orig + 1).toNat t1

/-- putTab forward scan: for x++; x < cols and not tabs[x]; x++. -/
def scanFwd (tabs : List Bool) (cols : Int) : Int → Nat → Int
  | x, 0 => x
  | x, fuel + 1 =>
    if x < cols ∧ ¬goGetD tabs x false then scanFwd tabs cols (x + 1) fuel else x

/-- putTab backward scan: for x--; x > 0 and not tabs[x]; x--. -/
def scanBwd (tabs : List Bool) : Int → Nat → Int
  | x, 0 => x
  | x, fuel + 1 =>
    if 0 < x ∧ ¬goGetD tabs x false then scanBwd tabs (x - 1) fuel else x

/-- putTab: move the cursor to the next / previous tab stop. -/
def putTab (t : Term) (forward : Bool) : Term :=
  let x := t.cur.x
  if forward then
    if x = t.cols then t
    else moveTo t (scanFwd t.tabs t.cols (x + 1) (t.cols - (x + 1)).toNat) t.cur.y
  else
    if x = 0 then t
    else moveTo t (scanBwd t.tabs (x - 1) (x - 1).toNat) t.cur.y

/-- newline: at the bottom of the scroll region scroll up one line,
otherwise go down one row; optionally return to column 0. -/
def newline (t : Term) (firstCol : Bool) : Term :=
  let y := t.cur.y
  if y = t.bottom then
    let t1 := scrollUp t t.top 1
    moveTo t1 (if firstCol then 0 else t1.cur.x) y
  else
    moveTo t (if firstCol then 0 else t.cur.x) (y + 1)

/-- The default tab stops over a ruler of the given length: all cleared,
then every tabspaces-th column starting at 8 set. -/
def defaultTabs (old : List Bool) : List Bool :=
  idxMap (fun i _ => decide (8 ≤ i ∧ i % 8 = 0)) old

/-- reset (RIS): zero the cursor and give it the default colors, save it,
rebuild the tab stops, reset the scroll region and the mode flags to wrap
only, clear, and home the cursor.  The clear call transposes its x/y
arguments exactly as the source does (t.clear(0, 0, t.rows-1, t.cols-1)),
and neither the alternate grid nor the parser state nor the CSI/STR
accumulators are touched, as in the source. -/
def reset (t : Term) : Term :=
  let cur0 : Cursor :=
    { Cursor.zero with attr := { Glyph.zero with fg := DefaultFG, bg := DefaultBG } }
  let t1 := saveCursor { t with cur := cur0 }
  let t2 := { t1 with tabs := defaultTabs t1.tabs }
  let t3 := { t2 with top := 0, bottom := t2.rows - 1 }
  let t4 := { t3 with mode := { Mode.zero with wrap := true } }
  let t5 := clear t4 0 0 (t4.rows - 1) (t4.cols - 1)
  moveTo t5 0 0

/-! ## Resize -/

/-- The slide step of Resize: when the cursor would fall off the bottom,
shift both grids up by slide = cur.y - rows + 1 rows
(copy(t.lines, t.lines[slide : slide+rows]) and the same for altLines). -/
def resizeSlide (t : Term) (rows : Int) : Term :=
  let slide := t.cur.y - rows + 1
  if slide > 0 then
    { t with lines := goCopy t.lines (goSlice t.lines slide (slide + rows))
             altLines := goCopy t.altLines (goSlice t.altLines slide (slide + rows)) }
  else t

/-- Allocate a rows × cols grid of zero glyphs and copy the overlap rows
(the first minrows rows, each up to the old column count) from the old grid. -/
def overlapGrid (old : List (List Glyph)) (cols rows minrows : Int) : List (List Glyph) :=
  (List.range rows.toNat).map fun i =>
    if Int.ofNat i < minrows
    then goCopy (List.replicate cols.toNat Glyph.zero) (lookupD old i [])
    else List.replicate cols.toNat Glyph.zero

/-- The allocation-and-copy step of Resize: fresh grids with the overlap
copied in, all rows dirty, the tab ruler copied up to the overlap, and the
new dimensions.  The tab-stop extension loop that follows copy(t.tabs, tabs)
in the source writes only into the old slice snapshot and never reaches
t.tabs, so it contributes nothing to the state. -/
def resizeGrids (t : Term) (cols rows : Int) : Term :=
  let minrows := min rows t.rows
  { t with lines := overlapGrid t.lines cols rows minrows
           altLines := overlapGrid t.altLines cols rows minrows
           dirty := List.replicate rows.toNat true
           tabs := goCopy (List.replicate cols.toNat false) t.tabs
           cols := cols
           rows := rows }

/-- One pass of the final Resize loop: clear the two newly-exposed regions
of the active grid (columns ≥ mincols of the overlap rows; rows ≥ minrows),
then swap screens; the loop body runs twice so that both grids are cleared
and the grids end up back in place. -/
def resizePass (t : Term) (mincols minrows : Int) : Term :=
  let t1 := if mincols < t.cols ∧ 0 < minrows
            then clear t mincols 0 (t.cols - 1) (minrows - 1) else t
  let t2 := if 0 < t1.cols ∧ minrows < t1.rows
            then clear t1 0 minrows (t1.cols - 1) (t1.rows - 1) else t1
  swapScreen t2

/-- Resize (the VT variant): no-op on unchanged or non-positive dimensions;
otherwise slide, reallocate with overlap copy, reset the scroll region,
clamp the cursor, and clear the newly-exposed regions of both grids.  The
final ttyResize() call only notifies the external TTY and has no effect on
the state.  The source returns slide > 0; the claims here concern the state,
so the flag is not carried. -/
def Resize (t : Term) (cols rows : Int) : Term :=
  if cols = t.cols ∧ rows = t.rows then t
  else if cols < 1 ∨ rows < 1 then t
  else
    let t1 := resizeSlide t rows
    let mincols := min cols t1.cols
    let minrows := min rows t1.rows
    let t2 := resizeGrids t1 cols rows
    let t3 := setScroll t2 0 (rows - 1)
    let t4 := moveTo t3 t3.cur.x t3.cur.y
    resizePass (resizePass t4 mincols minrows) mincols minrows

/-! ## Mode setting (setMode) -/

/-- One private (DEC) mode argument of setMode. -/
def setPrivMode (setb : Bool) (t : Term) (a : Int) : Term :=
  if a = 1 then { t with mode := { t.mode with appCursor := setb } }
  else if a = 5 then { t with mode := { t.mode with rev := setb } }
  else if a = 6 then
    moveAbsTo { t with cur := { t.cur with origin := setb } } 0 0
  else if a = 7 then { t with mode := { t.mode with wrap := setb } }
  else if a = 0 ∨ a = 2 ∨ a = 3 ∨ a = 4 ∨ a = 8 ∨ a = 18 ∨ a = 19 ∨ a = 42 ∨ a = 12
  then t
  else if a = 25 then { t with mode := { t.mode with hide := !setb } }
  else if a = 9 then
    { t with mode := { t.mode with mouseButton := false, mouseMotion := false
                                   mouseX10 := setb, mouseMany := false } }
  else if a = 1000 then
    { t with mode := { t.mode with mouseButton := setb, mouseMotion := false
                                   mouseX10 := false, mouseMany := false } }
  else if a = 1002 then
    { t with mode := { t.mode with mouseButton := false, mouseMotion := setb
                                   mouseX10 := false, mouseMany := false } }
  else if a = 1003 then
    { t with mode := { t.mode with mouseButton := false, mouseMotion := false
                                   mouseX10 := false, mouseMany := setb } }
  else if a = 1004 then { t with mode := { t.mode with focus := setb } }
  else if a = 1006 then { t with mode := { t.mode with mouseSgr := setb } }
  else if a = 1034 then { t with mode := { t.mode with eightBit := setb } }
  else if a = 1049 ∨ a = 47 ∨ a = 1047 then
    let alt := t.mode.altScreen
    let t1 := if alt then clear t 0 0 (t.cols - 1) (t.rows - 1) else t
    let t2 := if ¬setb ∨ ¬alt then swapScreen t1 else t1
    if a = 1049 then (if setb then saveCursor t2 else restoreCursor t2) else t2
  else if a = 1048 then (if setb then saveCursor t else restoreCursor t)
  else t

/-- One ANSI mode argument of setMode. -/
def setAnsiMode (setb : Bool) (t : Term) (a : Int) : Term :=
  if a = 2 then { t with mode := { t.mode with keyboardLock := setb } }
  else if a = 4 then { t with mode := { t.mode with insert := setb } }
  else if a = 12 then { t with mode := { t.mode with echo := setb } }
  else if a = 20 then { t with mode := { t.mode with crlf := setb } }
  else t

/-- setMode (SM/RM): fold the handler over the argument list.  This function
is fully implemented in the source but is never reached from the dispatcher,
because both mode cases of handleCSI are empty TODO stubs. -/
def setMode (t : Term) (priv setb : Bool) (args : List Int) : Term :=
  if priv then args.foldl (setPrivMode setb) t
  else args.foldl (setAnsiMode setb) t

/-! ## CSI accumulator (csi.go) -/

/-- csiEscape.reset: truncates buf and args; priv and mode survive. -/
def csiReset (e : CsiEscape) : CsiEscape :=
  { e with buf := [], args := [] }

/-- Go strconv.Atoi on a byte string: optional single sign, then at least
one decimal digit; anything else is an error (none). -/
def goAtoi (s : List Nat) : Option Int :=
  let p : Int × List Nat :=
    match s with
    | 0x2B :: r => (1, r)
    | 0x2D :: r => (-1, r)
    | r => (1, r)
  if p.2 = [] then none
  else if p.2.all (fun d => decide (0x30 ≤ d ∧ d ≤ 0x39)) then
    some (p.1 * (p.2.foldl (fun acc d => 10 * acc + ((d : Int) - 0x30)) 0))
  else none

/-- Decode the parameter fields: each field through Atoi, stopping at the
first malformed field (the loop breaks on error, keeping earlier values). -/
def csiArgsOf : List (List Nat) → List Int
  | [] => []
  | p :: rest =>
    match goAtoi p with
    | none => []
    | some i => i :: csiArgsOf rest

/-- csiEscape.parse: a leading '?' sets priv (and priv is never cleared);
the trailing byte becomes the final (mode); the body is split on ';' and
decoded as integers.  The source indexes s[0] and s[len-1], so it can only
be called with a nonempty buffer (put guarantees that); the empty cases
below are unreachable. -/
def csiParse (e : CsiEscape) : CsiEscape :=
  match e.buf with
  | [] => { e with args := [] }
  | b :: rest =>
    let priv := if b = 0x3F then true else e.priv
    let s := if b = 0x3F then rest else b :: rest
    match s.getLast? with
    | none => { e with args := [], priv := priv }
    | some m =>
      { e with priv := priv, mode := m
               args := csiArgsOf (s.dropLast.splitOn 0x3B) }

/-- csiEscape.put: append the byte; on a final byte (0x40..0x7E) or a full
buffer (≥ 256 bytes), parse and report completion. -/
def csiPut (e : CsiEscape) (b : Nat) : CsiEscape × Bool :=
  let e1 := { e with buf := e.buf ++ [b] }
  if (0x40 ≤ b ∧ b ≤ 0x7E) ∨ 256 ≤ e1.buf.length
  then (csiParse e1, true) else (e1, false)

/-- handleCSI: in csi.go every case of the final-byte switch is an empty
TODO stub (the cursor moves, clears, scrolls, the tsetmode and tsetattr
calls are all commented out), so dispatching a parsed CSI changes nothing. -/
def handleCSI (t : Term) : Term := t

/-! ## STR accumulator (str.go) -/

/-- strEscape.put: append the code point while the buffer is under 256. -/
def strPut (s : StrEscape) (c : Int) : StrEscape :=
  if s.buf.length < 256 then { s with buf := s.buf ++ [c] } else s

/-- handleSTR: strEscape.parse has an empty body, so args stays empty, and
every effectful branch of the kind switch (title set, color set/reset) is a
TODO stub; the call leaves the terminal unchanged. -/
def handleSTR (t : Term) : Term := t

/-! ## Dispatcher -/

/-- isControlCode: c < 0x20 or c == 0x7F. -/
def isControlCode (c : Int) : Bool :=
  c < 0x20 || c = 0x7F

/-- The set of control codes the handleControlCodes switch recognizes; any
other control code falls to the default case, which returns false. -/
def ccRecognized (c : Int) : Bool :=
  c = 0x09 || c = 0x08 || c = 0x0D || c = 0x0C || c = 0x0B || c = 0x0A ||
  c = 0x07 || c = 0x1B || c = 0x0E || c = 0x0F || c = 0x1A || c = 0x18 ||
  c = 0x05 || c = 0x00 || c = 0x11 || c = 0x13 || c = 0x7F

/-- The state effect of the handleControlCodes switch (identity for the
recognized codes whose case bodies only carry comments: BEL, SO, SI and the
ignored ENQ/NUL/XON/XOFF/DEL). -/
def applyCC (t : Term) (c : Int) : Term :=
  if c = 0x09 then putTab t true
  else if c = 0x08 then moveTo t (t.cur.x - 1) t.cur.y
  else if c = 0x0D then moveTo t 0 t.cur.y
  else if c = 0x0C ∨ c = 0x0B ∨ c = 0x0A then newline t t.mode.crlf
  else if c = 0x1B then { t with csi := csiReset t.csi, state := TState.escape }
  else if c = 0x1A ∨ c = 0x18 then { t with csi := csiReset t.csi }
  else t

/-- handleControlCodes: execute a recognized control code; the Bool is the
handled flag the Go function returns (false both for non-controls and for
control codes missing from the switch, which fall through to default and
have no effect). -/
def handleControlCodes (t : Term) (c : Int) : Term × Bool :=
  if ¬isControlCode c then (t, false)
  else if ccRecognized c then (applyCC t c, true)
  else (t, false)

/-- Go byte(c) conversion of a rune: truncation modulo 256. -/
def byteOf (c : Int) : Nat :=
  (c % 256).toNat

/-- The printable path of parse: wrap if pending, place the glyph, advance
or set wrapNext at the right edge.  The insert-mode shift is an
unimplemented TODO in the source and has no effect. -/
def wrapStep (t : Term) : Term :=
  -- the pending-wrap prologue of parse: mark the current cell's wrap
  -- attribute and take a first-column newline
  if t.mode.wrap ∧ t.cur.wrapNext then
    let row := goGetD t.lines t.cur.y []
    let g := goGetD row t.cur.x Glyph.zero
    let g1 : Glyph := { g with mode := { g.mode with wrap := true } }
    let marked := { t with lines := goSet t.lines t.cur.y (goSet row t.cur.x g1) }
    newline marked true
  else t

def printGlyph (t : Term) (c : Int) : Term :=
  let t1 := wrapStep t
  let t2 := setChar t1 c t1.cur.attr t1.cur.x t1.cur.y
  if t2.cur.x + 1 < t2.cols then moveTo t2 (t2.cur.x + 1) t2.cur.y
  else { t2 with cur := { t2.cur with wrapNext := true } }

/-- parse (the Ground state): handled control codes execute and return;
unhandled control codes are dropped unless the graphics charset is active
(the source falls through to printing in that case); everything else is
placed at the cursor. -/
def parseGround (t : Term) (c : Int) : Term :=
  if isControlCode c then
    let h := handleControlCodes t c
    if h.2 then h.1
    else if t.cur.attr.mode.gfx = false then t
    else printGlyph t c
  else printGlyph t c

/-- The t.state assignment of the Go state functions. -/
def setTState (t : Term) (st : TState) : Term :=
  { t with state := st }

/-- The ESC D (IND) handler body: down one row unless at the region bottom,
where the scroll call is a commented-out TODO in the source. -/
def escIND (t : Term) : Term :=
  if t.cur.y = t.bottom then t else moveTo t t.cur.x (t.cur.y + 1)

/-- The ESC M (RI) handler body: up one row unless at the region top, where
the scroll call is a commented-out TODO in the source. -/
def escRI (t : Term) : Term :=
  if t.cur.y = t.top then t else moveTo t t.cur.x (t.cur.y - 1)

/-- The non-control switch of parseEsc (everything past the control-code
preemption check). -/
def parseEscSwitch (t : Term) (c : Int) : Term :=
  if c = 0x5B then setTState t TState.escCSI
  else if c = 0x23 then setTState t TState.escTest
  else if c = 0x50 ∨ c = 0x5F ∨ c = 0x5E ∨ c = 0x5D ∨ c = 0x6B then
    setTState { t with str := { StrEscape.zero with typ := c } } TState.escStr
  else if c = 0x28 then setTState t TState.escAltCharset
  else if c = 0x29 ∨ c = 0x2A ∨ c = 0x2B then setTState t TState.ground
  else if c = 0x44 then setTState (escIND t) TState.ground
  else if c = 0x45 then setTState (newline t true) TState.ground
  else if c = 0x48 then
    setTState { t with tabs := goSet t.tabs t.cur.x true } TState.ground
  else if c = 0x4D then setTState (escRI t) TState.ground
  else if c = 0x5A then setTState t TState.ground
  else if c = 0x63 then setTState (reset t) TState.ground
  else if c = 0x3D then
    setTState { t with mode := { t.mode with appKeypad := true } } TState.ground
  else if c = 0x3E then
    setTState { t with mode := { t.mode with appKeypad := false } } TState.ground
  else if c = 0x37 then setTState (saveCursor t) TState.ground
  else if c = 0x38 then setTState (restoreCursor t) TState.ground
  else setTState t TState.ground

/-- parseEsc: the single-byte dispatch after ESC.  Control codes preempt. -/
def parseEsc (t : Term) (c : Int) : Term :=
  if (handleControlCodes t c).2 then (handleControlCodes t c).1
  else parseEscSwitch t c

/-- parseEscCSI: control codes preempt; otherwise the byte goes to the CSI
accumulator and a completed sequence is dispatched.  As in the source, the
state is NOT returned to Ground after the final byte. -/
def parseEscCSI (t : Term) (c : Int) : Term :=
  let h := handleControlCodes t c
  if h.2 then h.1
  else
    let p := csiPut t.csi (byteOf c)
    let t1 := { t with csi := p.1 }
    if p.2 then handleCSI t1 else t1

/-- parseEscStr: ESC moves to StrEnd, BEL terminates (xterm compatibility),
every other code point - control codes included - is appended to the STR
buffer.  handleControlCodes is not consulted in this state. -/
def parseEscStr (t : Term) (c : Int) : Term :=
  if c = 0x1B then { t with state := TState.escStrEnd }
  else if c = 0x07 then handleSTR { t with state := TState.ground }
  else { t with str := strPut t.str c }

/-- parseEscStrEnd: control codes preempt; otherwise return to Ground and
dispatch the string if the terminator backslash arrived. -/
def parseEscStrEnd (t : Term) (c : Int) : Term :=
  let h := handleControlCodes t c
  if h.2 then h.1
  else
    let t1 := { t with state := TState.ground }
    if c = 0x5C then handleSTR t1 else t1

/-- The graphics-charset bit assignment of parseEscAltCharset. -/
def setGfx (t : Term) (b : Bool) : Term :=
  { t with cur := { t.cur with attr :=
      { t.cur.attr with mode := { t.cur.attr.mode with gfx := b } } } }

/-- parseEscAltCharset: control codes preempt; '0' turns the graphics
charset on, 'B' off, the other recognized selectors (A < 5 C K) and
unrecognized ones are ignored. -/
def parseEscAltCharset (t : Term) (c : Int) : Term :=
  let h := handleControlCodes t c
  if h.2 then h.1
  else if c = 0x30 then setTState (setGfx t true) TState.ground
  else if c = 0x42 then setTState (setGfx t false) TState.ground
  else setTState t TState.ground

/-- The DEC screen alignment test of parseEscTest: fill every cell with 'E'
in the current attribute. -/
def fillScreen (t : Term) : Term :=
  forUp (fun y s =>
    forUp (fun x s2 => setChar s2 0x45 s2.cur.attr (Int.ofNat x) (Int.ofNat y))
      s.cols.toNat s)
    t.rows.toNat t

/-- parseEscTest: control codes preempt; on '8' fill the whole screen with
'E' in the current attribute (DEC alignment test). -/
def parseEscTest (t : Term) (c : Int) : Term :=
  let h := handleControlCodes t c
  if h.2 then h.1
  else if c = 0x38 then setTState (fillScreen t) TState.ground
  else setTState t TState.ground

/-- put: feed one code point to the current state function. -/
def put (t : Term) (c : Int) : Term :=
  match t.state with
  | TState.ground => parseGround t c
  | TState.escape => parseEsc t c
  | TState.escCSI => parseEscCSI t c
  | TState.escStr => parseEscStr t c
  | TState.escStrEnd => parseEscStrEnd t c
  | TState.escAltCharset => parseEscAltCharset t c
  | TState.escTest => parseEscTest t c

/-- feed: put a sequence of code points, in order. -/
def feed (t : Term) (cs : List Int) : Term :=
  cs.foldl put t

/-! ## Construction and public surface -/

/-- New: zero value with the default colors on the cursor template, the
parse state function, then Resize to the requested dimensions and reset. -/
def newTerm (columns rows : Int) : Term :=
  let t := { Term.zero with cur :=
    { Cursor.zero with attr := { Glyph.zero with fg := DefaultFG, bg := DefaultBG } } }
  reset (Resize t columns rows)

/-- Cell (the public read): t.lines[y][x] with no bounds checks of its own;
none models the Go index panic. -/
def Cell (t : Term) (x y : Int) : Option (Int × Nat × Nat) :=
  match goGet t.lines y with
  | none => none
  | some row =>
    match goGet row x with
    | none => none
    | some g => some (g.c, g.fg, g.bg)

/-- CursorHidden: the hide-cursor mode bit. -/
def CursorHidden (t : Term) : Bool :=
  t.mode.hide

/-! ## UTF-8 decoding and Write -/

/-- The low bound of the accepted second byte, by first byte
(Go utf8 acceptRanges). -/
def acceptLo (b : Nat) : Nat :=
  if b = 0xE0 then 0xA0 else if b = 0xF0 then 0x90 else 0x80

/-- The high bound of the accepted second byte, by first byte. -/
def acceptHi (b : Nat) : Nat :=
  if b = 0xED then 0x9F else if b = 0xF4 then 0x8F else 0xBF

/-- Go utf8.DecodeRune: code point and size; (0xFFFD, 1) for malformed or
truncated input, exactly as the Go table-driven decoder.  The Go mask
arithmetic b AND 0x1F, b AND 0x3F, shifts and ORs of disjoint fields is
written with the equivalent % and * and +. -/
def decodeRune (bs : List Nat) : Int × Nat :=
  match bs with
  | [] => (0xFFFD, 0)
  | b0 :: rest =>
    if b0 < 0x80 then (Int.ofNat b0, 1)
    else if b0 < 0xC2 ∨ 0xF4 < b0 then (0xFFFD, 1)
    else
      match rest with
      | [] => (0xFFFD, 1)
      | b1 :: rest2 =>
        if b1 < acceptLo b0 ∨ acceptHi b0 < b1 then (0xFFFD, 1)
        else if b0 < 0xE0 then
          (Int.ofNat ((b0 % 0x20) * 0x40 + b1 % 0x40), 2)
        else
          match rest2 with
          | [] => (0xFFFD, 1)
          | b2 :: rest3 =>
            if b2 < 0x80 ∨ 0xBF < b2 then (0xFFFD, 1)
            else if b0 < 0xF0 then
              (Int.ofNat ((b0 % 0x10) * 0x1000 + (b1 % 0x40) * 0x40 + b2 % 0x40), 3)
            else
              match rest3 with
              | [] => (0xFFFD, 1)
              | b3 :: _ =>
                if b3 < 0x80 ∨ 0xBF < b3 then (0xFFFD, 1)
                else
                  (Int.ofNat ((b0 % 8) * 0x40000 + (b1 % 0x40) * 0x1000
                    + (b2 % 0x40) * 0x40 + b3 % 0x40), 4)

/-- The loop of VT.Write: decode a rune, count its bytes; a lone
replacement of size 1 at the very end of the input is an incomplete rune,
whose byte is given back (written - 1); mid-stream it is logged and
skipped; every real rune goes to put.  The fuel is the number of remaining
bytes, which bounds the iteration count since every step consumes at least
one byte; the fuel-exhaustion row repeats the empty-input (EOF) result and
is never reached on nonempty input. -/
def writeLoop : Nat → Term → List Nat → Int → Term × Int
  | _, t, [], written => (t, written)
  | 0, t, _, written => (t, written)
  | fuel + 1, t, bs, written =>
    let p := decodeRune bs
    let written1 := written + Int.ofNat p.2
    let rest := bs.drop p.2
    if p.1 = 0xFFFD ∧ p.2 = 1 then
      if rest = [] then (t, written1 - 1)
      else writeLoop fuel t rest written1
    else writeLoop fuel (put t p.1) rest written1

/-- VT.Write: feed a byte slice, returning the final state and the number
of consumed bytes (partial-rune tails are not consumed). -/
def Write (t : Term) (p : List Nat) : Term × Int :=
  writeLoop p.length t p 0

/-! ## List lemmas for the slice primitives -/

theorem lookupD_ge {α : Type} (l : List α) (n : Nat) (d : α) (h : l.length ≤ n) :
    lookupD l n d = d := by
  induction l generalizing n with
  | nil => rfl
  | cons a as ih =>
    cases n with
    | zero => simp at h
    | succ m => exact ih m (by simpa using h)

theorem lookupD_mem {α : Type} (l : List α) (n : Nat) (d : α) (h : n < l.length) :
    lookupD l n d ∈ l := by
  induction l generalizing n with
  | nil => simp at h
  | cons a as ih =>
    cases n with
    | zero => exact List.mem_cons_self a as
    | succ m => exact List.mem_cons_of_mem a (ih m (by simpa using h))

theorem setAt_length {α : Type} (l : List α) (n : Nat) (a : α) :
    (setAt l n a).length = l.length := by
  induction l generalizing n with
  | nil => rfl
  | cons x xs ih =>
    cases n with
    | zero => rfl
    | succ m => simpa [setAt] using ih m

theorem mem_setAt {α : Type} (l : List α) (n : Nat) (a b : α) (h : b ∈ setAt l n a) :
    b ∈ l ∨ b = a := by
  induction l generalizing n with
  | nil => simp [setAt] at h
  | cons x xs ih =>
    cases n with
    | zero =>
      rcases List.mem_cons.1 h with h1 | h1
      · exact Or.inr h1
      · exact Or.inl (List.mem_cons_of_mem x h1)
    | succ m =>
      rcases List.mem_cons.1 h with h1 | h1
      · exact Or.inl (h1 ▸ List.mem_cons_self x xs)
      · rcases ih m h1 with h2 | h2
        · exact Or.inl (List.mem_cons_of_mem x h2)
        · exact Or.inr h2

theorem lookupD_setAt_self {α : Type} (l : List α) (n : Nat) (a d : α)
    (h : n < l.length) : lookupD (setAt l n a) n d = a := by
  induction l generalizing n with
  | nil => simp at h
  | cons x xs ih =>
    cases n with
    | zero => rfl
    | succ m => exact ih m (by simpa using h)

theorem lookupD_setAt_ne {α : Type} (l : List α) (n m : Nat) (a d : α)
    (h : m ≠ n) : lookupD (setAt l n a) m d = lookupD l m d := by
  induction l generalizing n m with
  | nil => rfl
  | cons x xs ih =>
    cases n with
    | zero =>
      cases m with
      | zero => exact absurd rfl h
      | succ k => rfl
    | succ p =>
      cases m with
      | zero => rfl
      | succ k => exact ih p k (fun hk => h (by omega))

theorem lookupO_isSome {α : Type} (l : List α) (n : Nat) (h : n < l.length) :
    (lookupO l n).isSome = true := by
  induction l generalizing n with
  | nil => simp at h
  | cons x xs ih =>
    cases n with
    | zero => rfl
    | succ m => exact ih m (by simpa using h)

theorem lookupO_ge {α : Type} (l : List α) (n : Nat) (h : l.length ≤ n) :
    lookupO l n = none := by
  induction l generalizing n with
  | nil => rfl
  | cons x xs ih =>
    cases n with
    | zero => simp at h
    | succ m => exact ih m (by simpa using h)

theorem idxGo_length {α : Type} (f : Int → α → α) (i : Int) (l : List α) :
    (idxGo f i l).length = l.length := by
  induction l generalizing i with
  | nil => rfl
  | cons a as ih => simpa [idxGo] using ih (i + 1)

theorem lookupD_idxGo {α : Type} (f : Int → α → α) (i : Int) (l : List α)
    (n : Nat) (d : α) (h : n < l.length) :
    lookupD (idxGo f i l) n d = f (i + Int.ofNat n) (lookupD l n d) := by
  induction l generalizing i n with
  | nil => simp at h
  | cons a as ih =>
    cases n with
    | zero => simp [idxGo, lookupD]
    | succ m =>
      have h2 : m < as.length := by simpa using h
      calc lookupD (idxGo f i (a :: as)) (m + 1) d
          = lookupD (idxGo f (i + 1) as) m d := rfl
        _ = f (i + 1 + Int.ofNat m) (lookupD as m d) := ih (i + 1) m h2
        _ = f (i + Int.ofNat (m + 1)) (lookupD (a :: as) (m + 1) d) := by
              have h3 : i + 1 + Int.ofNat m = i + Int.ofNat (m + 1) := by
                simp only [Int.ofNat_eq_coe]; omega
              rw [h3]; rfl

theorem mem_idxGo {α : Type} (f : Int → α → α) (i : Int) (l : List α) (b : α)
    (h : b ∈ idxGo f i l) : ∃ j a, a ∈ l ∧ b = f j a := by
  induction l generalizing i with
  | nil => simp [idxGo] at h
  | cons x xs ih =>
    rcases List.mem_cons.1 h with h1 | h1
    · exact ⟨i, x, List.mem_cons_self x xs, h1⟩
    · rcases ih (i + 1) h1 with ⟨j, a, ha, hb⟩
      exact ⟨j, a, List.mem_cons_of_mem x ha, hb⟩

theorem goCopy_length {α : Type} (dst src : List α) :
    (goCopy dst src).length = dst.length := by
  induction dst generalizing src with
  | nil => cases src <;> rfl
  | cons a as ih =>
    cases src with
    | nil => rfl
    | cons s ss => simpa [goCopy] using ih ss

theorem mem_goCopy {α : Type} (dst src : List α) (b : α) (h : b ∈ goCopy dst src) :
    b ∈ dst ∨ b ∈ src := by
  induction dst generalizing src with
  | nil => cases src <;> simp_all [goCopy]
  | cons a as ih =>
    cases src with
    | nil => exact Or.inl h
    | cons s ss =>
      rcases List.mem_cons.1 h with h1 | h1
      · exact Or.inr (h1 ▸ List.mem_cons_self s ss)
      · rcases ih ss h1 with h2 | h2
        · exact Or.inl (List.mem_cons_of_mem a h2)
        · exact Or.inr (List.mem_cons_of_mem s h2)

theorem lookupD_goCopy {α : Type} (dst src : List α) (n : Nat) (d : α) :
    lookupD (goCopy dst src) n d =
      if n < dst.length ∧ n < src.length then lookupD src n d else lookupD dst n d := by
  induction dst generalizing src n with
  | nil =>
    cases src with
    | nil => simp [goCopy]
    | cons s ss => simp [goCopy, lookupD]
  | cons a as ih =>
    cases src with
    | nil => simp [goCopy]
    | cons s ss =>
      cases n with
      | zero => simp [goCopy, lookupD]
      | succ m =>
        have := ih ss m
        simp only [goCopy, lookupD, List.length_cons]
        rw [this]
        by_cases h1 : m < as.length ∧ m < ss.length
        · rw [if_pos h1, if_pos (by omega)]
        · rw [if_neg h1, if_neg (by omega)]

theorem lookupD_replicate {α : Type} (k n : Nat) (a d : α) :
    lookupD (List.replicate k a) n d = if n < k then a else d := by
  induction k generalizing n with
  | zero => simp [lookupD]
  | succ m ih =>
    cases n with
    | zero => simp [List.replicate, lookupD]
    | succ p => simp [List.replicate, lookupD, ih]

theorem lookupD_append_left {α : Type} (l1 l2 : List α) (n : Nat) (d : α)
    (h : n < l1.length) : lookupD (l1 ++ l2) n d = lookupD l1 n d := by
  induction l1 generalizing n with
  | nil => simp at h
  | cons a as ih =>
    cases n with
    | zero => rfl
    | succ m => exact ih m (by simpa using h)

theorem lookupD_append_right {α : Type} (l1 l2 : List α) (n : Nat) (d : α) :
    lookupD (l1 ++ l2) (l1.length + n) d = lookupD l2 n d := by
  induction l1 with
  | nil => simp [lookupD]
  | cons a as ih =>
    have h1 : (a :: as).length + n = (as.length + n) + 1 := by simp; omega
    rw [h1]
    exact ih

theorem lookupD_rangeMap {α : Type} (f : Nat → α) (k n : Nat) (d : α) (h : n < k) :
    lookupD ((List.range k).map f) n d = f n := by
  induction k with
  | zero => simp at h
  | succ m ih =>
    rw [List.range_succ, List.map_append]
    rcases Nat.lt_succ_iff_lt_or_eq.1 h with h1 | h1
    · rw [lookupD_append_left _ _ _ _ (by simpa using h1)]
      exact ih h1
    · subst h1
      have h2 := lookupD_append_right ((List.range n).map f) (List.map f [n]) 0 d
      simpa [lookupD] using h2

theorem lookupD_drop {α : Type} (l : List α) (k n : Nat) (d : α) :
    lookupD (l.drop k) n d = lookupD l (k + n) d := by
  induction l generalizing k with
  | nil => simp [lookupD]
  | cons a as ih =>
    cases k with
    | zero => simp
    | succ m =>
      calc lookupD ((a :: as).drop (m + 1)) n d
          = lookupD (as.drop m) n d := rfl
        _ = lookupD as (m + n) d := ih m
        _ = lookupD (a :: as) (m + 1 + n) d := by
              have h1 : m + 1 + n = (m + n) + 1 := by omega
              rw [h1]; rfl

theorem lookupD_take {α : Type} (l : List α) (k n : Nat) (d : α) :
    lookupD (l.take k) n d = if n < k then lookupD l n d else d := by
  induction l generalizing k n with
  | nil => simp [lookupD]
  | cons a as ih =>
    cases k with
    | zero => simp [lookupD]
    | succ m =>
      cases n with
      | zero => simp [List.take, lookupD]
      | succ p =>
        calc lookupD ((a :: as).take (m + 1)) (p + 1) d
            = lookupD (as.take m) p d := rfl
          _ = if p < m then lookupD as p d else d := ih m p
          _ = if p + 1 < m + 1 then lookupD (a :: as) (p + 1) d else d := by
                by_cases hp : p < m
                · rw [if_pos hp, if_pos (by omega)]; rfl
                · rw [if_neg hp, if_neg (by omega)]

theorem forUp_invariant {α : Type} (P : α → Prop) (f : Nat → α → α) (k : Nat) (a : α)
    (hstep : ∀ j b, j < k → P b → P (f j b)) (h0 : P a) : P (forUp f k a) := by
  induction k with
  | zero => exact h0
  | succ m ih =>
    exact hstep m _ (Nat.lt_succ_self m)
      (ih (fun j b hj => hstep j b (Nat.lt_succ_of_lt hj)))

theorem goSet_length {α : Type} (l : List α) (i : Int) (a : α) :
    (goSet l i a).length = l.length := by
  unfold goSet
  split
  · rfl
  · exact setAt_length l i.toNat a

theorem mem_goSet {α : Type} (l : List α) (i : Int) (a b : α) (h : b ∈ goSet l i a) :
    b ∈ l ∨ b = a := by
  unfold goSet at h
  split at h
  · exact Or.inl h
  · exact mem_setAt l i.toNat a b h

theorem goGetD_mem {α : Type} (l : List α) (i : Int) (d : α) (h0 : 0 ≤ i)
    (h1 : i.toNat < l.length) : goGetD l i d ∈ l := by
  unfold goGetD
  rw [if_neg (by omega)]
  exact lookupD_mem l i.toNat d h1

theorem goGetD_goSet_self {α : Type} (l : List α) (i : Int) (a d : α) (h0 : 0 ≤ i)
    (h1 : i.toNat < l.length) : goGetD (goSet l i a) i d = a := by
  unfold goGetD goSet
  rw [if_neg (by omega), if_neg (by omega)]
  exact lookupD_setAt_self l i.toNat a d h1

theorem goGetD_goSet_ne {α : Type} (l : List α) (i j : Int) (a d : α)
    (h : i ≠ j) : goGetD (goSet l j a) i d = goGetD l i d := by
  unfold goGetD goSet
  by_cases hi : i < 0
  · rw [if_pos hi, if_pos hi]
  · by_cases hj : j < 0
    · rw [if_pos hj]
    · rw [if_neg hi, if_neg hj, if_neg hi]
      exact lookupD_setAt_ne l j.toNat i.toNat a d (by omega)

/-! ## The reachable-state invariant -/

/-- Dims: every slice has the length the dimensions promise: rows lines of
cols glyphs in both grids, rows dirty flags, cols tab stops. -/
def Dims (t : Term) : Prop :=
  t.lines.length = t.rows.toNat ∧
  (∀ row ∈ t.lines, row.length = t.cols.toNat) ∧
  t.altLines.length = t.rows.toNat ∧
  (∀ row ∈ t.altLines, row.length = t.cols.toNat) ∧
  t.dirty.length = t.rows.toNat ∧
  t.tabs.length = t.cols.toNat

/-- Geom: positive dimensions and a well-formed scroll region. -/
def Geom (t : Term) : Prop :=
  1 ≤ t.cols ∧ 1 ≤ t.rows ∧ 0 ≤ t.top ∧ t.top ≤ t.bottom ∧ t.bottom < t.rows

/-- CurOK: the cursor coordinate bounds, including the origin-mode
confinement to the scroll region. -/
def CurOK (t : Term) : Prop :=
  0 ≤ t.cur.x ∧ t.cur.x < t.cols ∧ 0 ≤ t.cur.y ∧ t.cur.y < t.rows ∧
  (t.cur.origin = true → t.top ≤ t.cur.y ∧ t.cur.y ≤ t.bottom)

/-- Inv: the invariant of reachable terminal states. -/
def Inv (t : Term) : Prop :=
  Geom t ∧ Dims t ∧ CurOK t

theorem setAt_ge {α : Type} (l : List α) (n : Nat) (a : α) (h : l.length ≤ n) :
    setAt l n a = l := by
  induction l generalizing n with
  | nil => rfl
  | cons x xs ih =>
    cases n with
    | zero => simp at h
    | succ m => simpa [setAt] using ih m (by simpa using h)

theorem goSet_oob {α : Type} (l : List α) (i : Int) (a : α)
    (h : i < 0 ∨ l.length ≤ i.toNat) : goSet l i a = l := by
  unfold goSet
  rcases h with h | h
  · rw [if_pos h]
  · split
    · rfl
    · exact setAt_ge l i.toNat a h

/-- The fields of Term that the grid-mutation primitives leave alone. -/
def SameScalars (a b : Term) : Prop :=
  a.cols = b.cols ∧ a.rows = b.rows ∧ a.top = b.top ∧ a.bottom = b.bottom ∧
  a.cur = b.cur ∧ a.curSaved = b.curSaved ∧ a.mode = b.mode ∧
  a.state = b.state ∧ a.str = b.str ∧ a.csi = b.csi ∧ a.tabs = b.tabs

theorem sameScalars_refl (a : Term) : SameScalars a a :=
  ⟨Eq.refl _, Eq.refl _, Eq.refl _, Eq.refl _, Eq.refl _, Eq.refl _, Eq.refl _,
   Eq.refl _, Eq.refl _, Eq.refl _, Eq.refl _⟩

theorem SameScalars.trans {a b c : Term} (h1 : SameScalars a b)
    (h2 : SameScalars b c) : SameScalars a c := by
  obtain ⟨p1, p2, p3, p4, p5, p6, p7, p8, p9, p10, p11⟩ := h1
  obtain ⟨q1, q2, q3, q4, q5, q6, q7, q8, q9, q10, q11⟩ := h2
  exact ⟨p1.trans q1, p2.trans q2, p3.trans q3, p4.trans q4, p5.trans q5,
         p6.trans q6, p7.trans q7, p8.trans q8, p9.trans q9, p10.trans q10,
         p11.trans q11⟩

theorem clear_scalars (t : Term) (x0 y0 x1 y1 : Int) :
    SameScalars (clear t x0 y0 x1 y1) t :=
  ⟨Eq.refl _, Eq.refl _, Eq.refl _, Eq.refl _, Eq.refl _, Eq.refl _, Eq.refl _,
   Eq.refl _, Eq.refl _, Eq.refl _, Eq.refl _⟩

theorem setChar_scalars (t : Term) (c : Int) (attr : Glyph) (x y : Int) :
    SameScalars (setChar t c attr x y) t :=
  ⟨Eq.refl _, Eq.refl _, Eq.refl _, Eq.refl _, Eq.refl _, Eq.refl _, Eq.refl _,
   Eq.refl _, Eq.refl _, Eq.refl _, Eq.refl _⟩

theorem scrollStep_scalars (t : Term) (i n : Int) :
    SameScalars (scrollStep t i n) t :=
  ⟨Eq.refl _, Eq.refl _, Eq.refl _, Eq.refl _, Eq.refl _, Eq.refl _, Eq.refl _,
   Eq.refl _, Eq.refl _, Eq.refl _, Eq.refl _⟩

/-- Geom only looks at scalar fields. -/
theorem geom_of_scalars {a b : Term} (h : SameScalars a b) (hG : Geom b) : Geom a := by
  obtain ⟨p1, p2, p3, p4, _⟩ := h
  unfold Geom at hG ⊢
  rw [p1, p2, p3, p4]
  exact hG

/-- CurOK only looks at scalar fields. -/
theorem curok_of_scalars {a b : Term} (h : SameScalars a b) (hC : CurOK b) : CurOK a := by
  obtain ⟨p1, p2, p3, p4, p5, _⟩ := h
  unfold CurOK at hC ⊢
  rw [p1, p2, p3, p4, p5]
  exact hC

theorem moveTo_inv (t : Term) (x y : Int) (hG : Geom t) (hD : Dims t) :
    Inv (moveTo t x y) := by
  refine ⟨hG, hD, ?_⟩
  obtain ⟨hc, hr, ht, htb, hb⟩ := hG
  unfold CurOK moveTo clamp
  dsimp only
  cases ho : t.cur.origin <;> simp [ho] <;> split_ifs <;> omega

theorem saveCursor_inv (t : Term) (h : Inv t) : Inv (saveCursor t) := h

theorem restoreCursor_inv (t : Term) (hG : Geom t) (hD : Dims t) :
    Inv (restoreCursor t) :=
  moveTo_inv { t with cur := t.curSaved } _ _ hG hD

theorem length_ite_idxGo {α : Type} (cnd : Prop) [inst : Decidable cnd]
    (g : Int → α → α) (l : List α) :
    (if cnd then idxGo g 0 l else l).length = l.length := by
  split
  · exact idxGo_length g 0 l
  · rfl

theorem dims_clear (t : Term) (a b c d : Int) (hD : Dims t) :
    Dims (clear t a b c d) := by
  obtain ⟨h1, h2, h3, h4, h5, h6⟩ := hD
  unfold clear Dims idxMap
  dsimp only
  refine ⟨?_, ?_, h3, h4, ?_, h6⟩
  · rw [idxGo_length]; exact h1
  · intro row hrow
    rcases mem_idxGo _ _ _ _ hrow with ⟨j, orig, horig, hrw⟩
    subst hrw
    rw [length_ite_idxGo]
    exact h2 orig horig
  · rw [idxGo_length]; exact h5

theorem clear_inv (t : Term) (a b c d : Int) (h : Inv t) :
    Inv (clear t a b c d) :=
  ⟨geom_of_scalars (clear_scalars t a b c d) h.1,
   dims_clear t a b c d h.2.1,
   curok_of_scalars (clear_scalars t a b c d) h.2.2⟩

theorem dims_setChar (t : Term) (c : Int) (attr : Glyph) (x y : Int)
    (hD : Dims t) : Dims (setChar t c attr x y) := by
  obtain ⟨h1, h2, h3, h4, h5, h6⟩ := hD
  unfold setChar Dims
  dsimp only
  refine ⟨?_, ?_, h3, h4, ?_, h6⟩
  · rw [goSet_length]; exact h1
  · intro row hrow
    by_cases hy : y < 0 ∨ t.lines.length ≤ y.toNat
    · rw [goSet_oob _ _ _ hy] at hrow
      exact h2 row hrow
    · push_neg at hy
      rcases mem_goSet _ _ _ _ hrow with hold | hnew
      · exact h2 row hold
      · subst hnew
        rw [goSet_length]
        exact h2 _ (goGetD_mem _ _ _ (by omega) hy.2)
  · rw [goSet_length]; exact h5

theorem setChar_inv (t : Term) (c : Int) (attr : Glyph) (x y : Int)
    (h : Inv t) : Inv (setChar t c attr x y) :=
  ⟨geom_of_scalars (setChar_scalars t c attr x y) h.1,
   dims_setChar t c attr x y h.2.1,
   curok_of_scalars (setChar_scalars t c attr x y) h.2.2⟩

/-- A single-cell write (the wrap-mark update in wrapStep) preserves Dims. -/
theorem dims_setCell (t : Term) (y x : Int) (g : Glyph) (hD : Dims t) :
    Dims { t with lines := goSet t.lines y (goSet (goGetD t.lines y []) x g) } := by
  obtain ⟨h1, h2, h3, h4, h5, h6⟩ := hD
  unfold Dims
  dsimp only
  refine ⟨?_, ?_, h3, h4, h5, h6⟩
  · rw [goSet_length]; exact h1
  · intro row hrow
    by_cases hy : y < 0 ∨ t.lines.length ≤ y.toNat
    · rw [goSet_oob _ _ _ hy] at hrow
      exact h2 row hrow
    · push_neg at hy
      rcases mem_goSet _ _ _ _ hrow with hold | hnew
      · exact h2 row hold
      · subst hnew
        rw [goSet_length]
        exact h2 _ (goGetD_mem _ _ _ (by omega) hy.2)

theorem scrollUp_dims_scalars (t : Term) (orig n0 : Int) (horig : 0 ≤ orig)
    (hb : t.bottom < t.rows) (hD : Dims t) :
    Dims (scrollUp t orig n0) ∧ SameScalars (scrollUp t orig n0) t := by
  unfold scrollUp
  dsimp only
  set n := clamp n0 0 (t.bottom - orig + 1) with hn
  set t1 := clear t 0 orig (t.cols - 1) (orig + n - 1) with ht1
  have hS1 : SameScalars t1 t := clear_scalars t 0 orig (t.cols - 1) (orig + n - 1)
  have hD1 : Dims t1 := dims_clear t 0 orig (t.cols - 1) (orig + n - 1) hD
  have hb1 : t1.bottom = t.bottom := hS1.2.2.2.1
  have hr1 : t1.rows = t.rows := hS1.2.1
  set k := (t1.bottom - n - orig + 1).toNat with hk
  by_cases hk0 : k = 0
  · rw [hk0]
    exact ⟨hD1, hS1⟩
  have hk1 : 1 ≤ t.bottom - n - orig + 1 := by rw [← hb1]; omega
  have hn0 : 0 ≤ n := by
    have h2 := hn
    unfold clamp at h2
    split_ifs at h2 <;> omega
  have main : Dims (forUp (fun j s => scrollStep s (orig + Int.ofNat j) n) k t1) ∧
      SameScalars (forUp (fun j s => scrollStep s (orig + Int.ofNat j) n) k t1) t1 := by
    refine forUp_invariant (fun s => Dims s ∧ SameScalars s t1) _ k t1
      ?_ ⟨hD1, sameScalars_refl t1⟩
    intro j s hj hP
    obtain ⟨hDs, hS⟩ := hP
    have hrowsEq : s.rows = t1.rows := hS.2.1
    have hjlt : orig + Int.ofNat j + n ≤ t1.bottom := by
      rw [hk] at hj
      simp only [Int.ofNat_eq_coe]
      omega
    obtain ⟨d1, d2, d3, d4, d5, d6⟩ := hDs
    have hlen : s.lines.length = t1.rows.toNat := by rw [d1, hrowsEq]
    have hi0 : 0 ≤ orig + Int.ofNat j := by
      simp only [Int.ofNat_eq_coe]; omega
    have hiN : (orig + Int.ofNat j).toNat < s.lines.length := by
      rw [hlen]; simp only [Int.ofNat_eq_coe] at hjlt ⊢; omega
    have hiN2 : (orig + Int.ofNat j + n).toNat < s.lines.length := by
      rw [hlen]; simp only [Int.ofNat_eq_coe] at hjlt ⊢; omega
    constructor
    · unfold scrollStep Dims
      dsimp only
      refine ⟨?_, ?_, d3, d4, ?_, d6⟩
      · rw [goSet_length, goSet_length]; exact d1
      · intro row hrow
        rcases mem_goSet _ _ _ _ hrow with hrow1 | hrow1
        · rcases mem_goSet _ _ _ _ hrow1 with hrow2 | hrow2
          · exact d2 row hrow2
          · subst hrow2
            exact d2 _ (goGetD_mem _ _ _ (by simp only [Int.ofNat_eq_coe] at hi0 ⊢; omega) hiN2)
        · subst hrow1
          exact d2 _ (goGetD_mem _ _ _ hi0 hiN)
      · rw [goSet_length, goSet_length]; exact d5
    · exact (scrollStep_scalars s _ n).trans hS
  exact ⟨main.1, main.2.trans hS1⟩

theorem scrollUp_inv (t : Term) (orig n0 : Int) (horig : 0 ≤ orig) (h : Inv t) :
    Inv (scrollUp t orig n0) := by
  obtain ⟨hG, hD, hC⟩ := h
  obtain ⟨hD2, hS⟩ := scrollUp_dims_scalars t orig n0 horig hG.2.2.2.2 hD
  exact ⟨geom_of_scalars hS hG, hD2, curok_of_scalars hS hC⟩

theorem putTab_inv (t : Term) (fwd : Bool) (h : Inv t) : Inv (putTab t fwd) := by
  unfold putTab
  dsimp only
  split_ifs
  · exact h
  · exact moveTo_inv _ _ _ h.1 h.2.1
  · exact h
  · exact moveTo_inv _ _ _ h.1 h.2.1

theorem newline_inv (t : Term) (fc : Bool) (h : Inv t) : Inv (newline t fc) := by
  unfold newline
  dsimp only
  split
  · have h1 : Inv (scrollUp t t.top 1) := scrollUp_inv t t.top 1 h.1.2.2.1 h
    exact moveTo_inv _ _ _ h1.1 h1.2.1
  · exact moveTo_inv _ _ _ h.1 h.2.1

theorem reset_inv (t : Term) (hG : Geom t) (hD : Dims t) : Inv (reset t) := by
  unfold reset saveCursor
  apply moveTo_inv
  · apply geom_of_scalars (clear_scalars _ _ _ _ _)
    unfold Geom
    dsimp only
    obtain ⟨hc, hr, _⟩ := hG
    exact ⟨hc, hr, le_refl 0, by omega, by omega⟩
  · apply dims_clear
    unfold Dims defaultTabs idxMap
    dsimp only
    obtain ⟨d1, d2, d3, d4, d5, d6⟩ := hD
    exact ⟨d1, d2, d3, d4, d5, by rw [idxGo_length]; exact d6⟩

theorem swapScreen_inv (t : Term) (h : Inv t) : Inv (swapScreen t) := by
  obtain ⟨hG, hD, hC⟩ := h
  obtain ⟨d1, d2, d3, d4, d5, d6⟩ := hD
  refine ⟨hG, ?_, hC⟩
  unfold Dims swapScreen dirtyAll idxMap
  refine ⟨d3, d4, d1, d2, ?_, d6⟩
  rw [idxGo_length]; exact d5

theorem applyCC_inv (t : Term) (c : Int) (h : Inv t) : Inv (applyCC t c) := by
  unfold applyCC
  split_ifs
  · exact putTab_inv t true h
  · exact moveTo_inv _ _ _ h.1 h.2.1
  · exact moveTo_inv _ _ _ h.1 h.2.1
  · exact newline_inv _ _ h
  · exact h
  · exact h
  · exact h

theorem handleControlCodes_inv (t : Term) (c : Int) (h : Inv t) :
    Inv (handleControlCodes t c).1 := by
  unfold handleControlCodes
  split_ifs <;> try dsimp only
  all_goals first
    | exact h
    | exact applyCC_inv t c h

theorem wrapStep_inv (t : Term) (h : Inv t) : Inv (wrapStep t) := by
  unfold wrapStep
  dsimp only
  split
  · apply newline_inv
    exact ⟨h.1, dims_setCell t t.cur.y t.cur.x _ h.2.1, h.2.2⟩
  · exact h

theorem printGlyph_inv (t : Term) (c : Int) (h : Inv t) : Inv (printGlyph t c) := by
  unfold printGlyph
  dsimp only
  have h1 := wrapStep_inv t h
  have h2 := setChar_inv (wrapStep t) c (wrapStep t).cur.attr (wrapStep t).cur.x
    (wrapStep t).cur.y h1
  split
  · exact moveTo_inv _ _ _ h2.1 h2.2.1
  · exact ⟨h2.1, h2.2.1, h2.2.2⟩

theorem parseGround_inv (t : Term) (c : Int) (h : Inv t) : Inv (parseGround t c) := by
  unfold parseGround
  dsimp only
  split_ifs
  · exact handleControlCodes_inv t c h
  · exact h
  · exact printGlyph_inv t c h
  · exact printGlyph_inv t c h

theorem setTState_inv (t : Term) (st : TState) (h : Inv t) : Inv (setTState t st) := h

theorem escIND_inv (t : Term) (h : Inv t) : Inv (escIND t) := by
  unfold escIND
  split
  · exact h
  · exact moveTo_inv _ _ _ h.1 h.2.1

theorem escRI_inv (t : Term) (h : Inv t) : Inv (escRI t) := by
  unfold escRI
  split
  · exact h
  · exact moveTo_inv _ _ _ h.1 h.2.1

theorem parseEscSwitch_inv (t : Term) (c : Int) (h : Inv t) :
    Inv (parseEscSwitch t c) := by
  have hHTS : Inv { t with tabs := goSet t.tabs t.cur.x true } := by
    obtain ⟨hG, ⟨d1, d2, d3, d4, d5, d6⟩, hC⟩ := h
    exact ⟨hG, ⟨d1, d2, d3, d4, d5, by rw [goSet_length]; exact d6⟩, hC⟩
  unfold parseEscSwitch
  by_cases hb1 : c = 0x5B
  · rw [if_pos hb1]; exact setTState_inv _ _ h
  · rw [if_neg hb1]
    by_cases hb2 : c = 0x23
    · rw [if_pos hb2]; exact setTState_inv _ _ h
    · rw [if_neg hb2]
      by_cases hb3 : c = 0x50 ∨ c = 0x5F ∨ c = 0x5E ∨ c = 0x5D ∨ c = 0x6B
      · rw [if_pos hb3]; exact setTState_inv _ _ h
      · rw [if_neg hb3]
        by_cases hb4 : c = 0x28
        · rw [if_pos hb4]; exact setTState_inv _ _ h
        · rw [if_neg hb4]
          by_cases hb5 : c = 0x29 ∨ c = 0x2A ∨ c = 0x2B
          · rw [if_pos hb5]; exact setTState_inv _ _ h
          · rw [if_neg hb5]
            by_cases hb6 : c = 0x44
            · rw [if_pos hb6]; exact setTState_inv _ _ (escIND_inv t h)
            · rw [if_neg hb6]
              by_cases hb7 : c = 0x45
              · rw [if_pos hb7]; exact setTState_inv _ _ (newline_inv t true h)
              · rw [if_neg hb7]
                by_cases hb8 : c = 0x48
                · rw [if_pos hb8]; exact setTState_inv _ _ hHTS
                · rw [if_neg hb8]
                  by_cases hb9 : c = 0x4D
                  · rw [if_pos hb9]; exact setTState_inv _ _ (escRI_inv t h)
                  · rw [if_neg hb9]
                    by_cases hb10 : c = 0x5A
                    · rw [if_pos hb10]; exact setTState_inv _ _ h
                    · rw [if_neg hb10]
                      by_cases hb11 : c = 0x63
                      · rw [if_pos hb11]; exact setTState_inv _ _ (reset_inv t h.1 h.2.1)
                      · rw [if_neg hb11]
                        by_cases hb12 : c = 0x3D
                        · rw [if_pos hb12]; exact setTState_inv _ _ h
                        · rw [if_neg hb12]
                          by_cases hb13 : c = 0x3E
                          · rw [if_pos hb13]; exact setTState_inv _ _ h
                          · rw [if_neg hb13]
                            by_cases hb14 : c = 0x37
                            · rw [if_pos hb14]; exact setTState_inv _ _ h
                            · rw [if_neg hb14]
                              by_cases hb15 : c = 0x38
                              · rw [if_pos hb15]; exact setTState_inv _ _ (restoreCursor_inv t h.1 h.2.1)
                              · rw [if_neg hb15]
                                exact setTState_inv _ _ h

theorem parseEsc_inv (t : Term) (c : Int) (h : Inv t) : Inv (parseEsc t c) := by
  unfold parseEsc
  split
  · exact handleControlCodes_inv t c h
  · exact parseEscSwitch_inv t c h

theorem parseEscCSI_inv (t : Term) (c : Int) (h : Inv t) : Inv (parseEscCSI t c) := by
  unfold parseEscCSI
  dsimp only
  split_ifs
  · exact handleControlCodes_inv t c h
  · exact h
  · exact h

theorem parseEscStr_inv (t : Term) (c : Int) (h : Inv t) : Inv (parseEscStr t c) := by
  unfold parseEscStr
  split_ifs <;> exact h

theorem parseEscStrEnd_inv (t : Term) (c : Int) (h : Inv t) :
    Inv (parseEscStrEnd t c) := by
  unfold parseEscStrEnd
  dsimp only
  split_ifs
  · exact handleControlCodes_inv t c h
  · exact h
  · exact h

theorem parseEscAltCharset_inv (t : Term) (c : Int) (h : Inv t) :
    Inv (parseEscAltCharset t c) := by
  unfold parseEscAltCharset
  dsimp only
  split_ifs
  · exact handleControlCodes_inv t c h
  · exact setTState_inv _ _ h
  · exact setTState_inv _ _ h
  · exact setTState_inv _ _ h

theorem fillScreen_inv (t : Term) (h : Inv t) : Inv (fillScreen t) := by
  unfold fillScreen
  refine forUp_invariant (fun s => Inv s) _ _ t ?_ h
  intro y s hy hs
  refine forUp_invariant (fun s2 => Inv s2) _ _ s ?_ hs
  intro x s2 hx hs2
  exact setChar_inv s2 0x45 s2.cur.attr _ _ hs2

theorem parseEscTest_inv (t : Term) (c : Int) (h : Inv t) :
    Inv (parseEscTest t c) := by
  unfold parseEscTest
  dsimp only
  split_ifs
  · exact handleControlCodes_inv t c h
  · exact setTState_inv _ _ (fillScreen_inv t h)
  · exact setTState_inv _ _ h

theorem put_inv (t : Term) (c : Int) (h : Inv t) : Inv (put t c) := by
  unfold put
  split
  · exact parseGround_inv t c h
  · exact parseEsc_inv t c h
  · exact parseEscCSI_inv t c h
  · exact parseEscStr_inv t c h
  · exact parseEscStrEnd_inv t c h
  · exact parseEscAltCharset_inv t c h
  · exact parseEscTest_inv t c h

theorem feed_inv (t : Term) (cs : List Int) (h : Inv t) : Inv (feed t cs) := by
  induction cs generalizing t with
  | nil => exact h
  | cons c rest ih => exact ih (put t c) (put_inv t c h)

/-! ## The column and row counts are constant across feeding -/

/-- SameSize: equal cols and rows. -/
def SameSize (a b : Term) : Prop :=
  a.cols = b.cols ∧ a.rows = b.rows

theorem sameSize_trans {a b c : Term} (h1 : SameSize a b) (h2 : SameSize b c) :
    SameSize a c :=
  ⟨h1.1.trans h2.1, h1.2.trans h2.2⟩

theorem scrollUp_size (t : Term) (orig n0 : Int) : SameSize (scrollUp t orig n0) t := by
  unfold scrollUp
  dsimp only
  refine forUp_invariant (fun s => SameSize s t) _ _ _ ?_ ⟨Eq.refl _, Eq.refl _⟩
  intro j s hj hS
  exact sameSize_trans ⟨Eq.refl _, Eq.refl _⟩ hS

theorem newline_size (t : Term) (fc : Bool) : SameSize (newline t fc) t := by
  unfold newline
  dsimp only
  split
  · exact sameSize_trans ⟨Eq.refl _, Eq.refl _⟩ (scrollUp_size t t.top 1)
  · exact ⟨Eq.refl _, Eq.refl _⟩

theorem putTab_size (t : Term) (fwd : Bool) : SameSize (putTab t fwd) t := by
  unfold putTab
  dsimp only
  split_ifs <;> exact ⟨Eq.refl _, Eq.refl _⟩

theorem reset_size (t : Term) : SameSize (reset t) t :=
  ⟨Eq.refl _, Eq.refl _⟩

theorem applyCC_size (t : Term) (c : Int) : SameSize (applyCC t c) t := by
  unfold applyCC
  split_ifs
  · exact putTab_size t true
  · exact ⟨Eq.refl _, Eq.refl _⟩
  · exact ⟨Eq.refl _, Eq.refl _⟩
  · exact newline_size t t.mode.crlf
  · exact ⟨Eq.refl _, Eq.refl _⟩
  · exact ⟨Eq.refl _, Eq.refl _⟩
  · exact ⟨Eq.refl _, Eq.refl _⟩

theorem handleControlCodes_size (t : Term) (c : Int) :
    SameSize (handleControlCodes t c).1 t := by
  unfold handleControlCodes
  split_ifs <;> try dsimp only
  all_goals first
    | exact ⟨Eq.refl _, Eq.refl _⟩
    | exact applyCC_size t c

theorem escIND_size (t : Term) : SameSize (escIND t) t := by
  unfold escIND
  split <;> exact ⟨Eq.refl _, Eq.refl _⟩

theorem escRI_size (t : Term) : SameSize (escRI t) t := by
  unfold escRI
  split <;> exact ⟨Eq.refl _, Eq.refl _⟩

theorem sameSize_of_rfl {a : Term} : SameSize a a :=
  ⟨Eq.refl _, Eq.refl _⟩

theorem wrapStep_size (t : Term) : SameSize (wrapStep t) t := by
  unfold wrapStep
  dsimp only
  split
  · exact sameSize_trans (newline_size _ true) ⟨Eq.refl _, Eq.refl _⟩
  · exact ⟨Eq.refl _, Eq.refl _⟩

theorem printGlyph_size (t : Term) (c : Int) : SameSize (printGlyph t c) t := by
  unfold printGlyph
  dsimp only
  split
  · exact sameSize_trans ⟨Eq.refl _, Eq.refl _⟩ (wrapStep_size t)
  · exact sameSize_trans ⟨Eq.refl _, Eq.refl _⟩ (wrapStep_size t)

theorem parseGround_size (t : Term) (c : Int) : SameSize (parseGround t c) t := by
  unfold parseGround
  dsimp only
  split_ifs
  · exact handleControlCodes_size t c
  · exact ⟨Eq.refl _, Eq.refl _⟩
  · exact printGlyph_size t c
  · exact printGlyph_size t c

theorem parseEscSwitch_size (t : Term) (c : Int) : SameSize (parseEscSwitch t c) t := by
  unfold parseEscSwitch
  by_cases hb1 : c = 0x5B
  · rw [if_pos hb1]; exact ⟨Eq.refl _, Eq.refl _⟩
  · rw [if_neg hb1]
    by_cases hb2 : c = 0x23
    · rw [if_pos hb2]; exact ⟨Eq.refl _, Eq.refl _⟩
    · rw [if_neg hb2]
      by_cases hb3 : c = 0x50 ∨ c = 0x5F ∨ c = 0x5E ∨ c = 0x5D ∨ c = 0x6B
      · rw [if_pos hb3]; exact ⟨Eq.refl _, Eq.refl _⟩
      · rw [if_neg hb3]
        by_cases hb4 : c = 0x28
        · rw [if_pos hb4]; exact ⟨Eq.refl _, Eq.refl _⟩
        · rw [if_neg hb4]
          by_cases hb5 : c = 0x29 ∨ c = 0x2A ∨ c = 0x2B
          · rw [if_pos hb5]; exact ⟨Eq.refl _, Eq.refl _⟩
          · rw [if_neg hb5]
            by_cases hb6 : c = 0x44
            · rw [if_pos hb6]; exact escIND_size t
            · rw [if_neg hb6]
              by_cases hb7 : c = 0x45
              · rw [if_pos hb7]; exact sameSize_trans ⟨Eq.refl _, Eq.refl _⟩ (newline_size t true)
              · rw [if_neg hb7]
                by_cases hb8 : c = 0x48
                · rw [if_pos hb8]; exact ⟨Eq.refl _, Eq.refl _⟩
                · rw [if_neg hb8]
                  by_cases hb9 : c = 0x4D
                  · rw [if_pos hb9]; exact escRI_size t
                  · rw [if_neg hb9]
                    by_cases hb10 : c = 0x5A
                    · rw [if_pos hb10]; exact ⟨Eq.refl _, Eq.refl _⟩
                    · rw [if_neg hb10]
                      by_cases hb11 : c = 0x63
                      · rw [if_pos hb11]; exact ⟨Eq.refl _, Eq.refl _⟩
                      · rw [if_neg hb11]
                        by_cases hb12 : c = 0x3D
                        · rw [if_pos hb12]; exact ⟨Eq.refl _, Eq.refl _⟩
                        · rw [if_neg hb12]
                          by_cases hb13 : c = 0x3E
                          · rw [if_pos hb13]; exact ⟨Eq.refl _, Eq.refl _⟩
                          · rw [if_neg hb13]
                            by_cases hb14 : c = 0x37
                            · rw [if_pos hb14]; exact ⟨Eq.refl _, Eq.refl _⟩
                            · rw [if_neg hb14]
                              by_cases hb15 : c = 0x38
                              · rw [if_pos hb15]; exact ⟨Eq.refl _, Eq.refl _⟩
                              · rw [if_neg hb15]
                                exact ⟨Eq.refl _, Eq.refl _⟩

theorem parseEsc_size (t : Term) (c : Int) : SameSize (parseEsc t c) t := by
  unfold parseEsc
  split
  · exact handleControlCodes_size t c
  · exact parseEscSwitch_size t c

theorem parseEscCSI_size (t : Term) (c : Int) : SameSize (parseEscCSI t c) t := by
  unfold parseEscCSI
  dsimp only
  split
  · exact handleControlCodes_size t c
  · split <;> exact ⟨Eq.refl _, Eq.refl _⟩

theorem parseEscStr_size (t : Term) (c : Int) : SameSize (parseEscStr t c) t := by
  unfold parseEscStr
  split_ifs <;> exact ⟨Eq.refl _, Eq.refl _⟩

theorem parseEscStrEnd_size (t : Term) (c : Int) : SameSize (parseEscStrEnd t c) t := by
  unfold parseEscStrEnd
  dsimp only
  split
  · exact handleControlCodes_size t c
  · split <;> exact ⟨Eq.refl _, Eq.refl _⟩

theorem parseEscAltCharset_size (t : Term) (c : Int) :
    SameSize (parseEscAltCharset t c) t := by
  unfold parseEscAltCharset
  dsimp only
  split_ifs
  · exact handleControlCodes_size t c
  · exact ⟨Eq.refl _, Eq.refl _⟩
  · exact ⟨Eq.refl _, Eq.refl _⟩
  · exact ⟨Eq.refl _, Eq.refl _⟩

theorem fillScreen_size (t : Term) : SameSize (fillScreen t) t := by
  unfold fillScreen
  refine forUp_invariant (fun s => SameSize s t) _ _ _ ?_ sameSize_of_rfl
  intro y s hy hS
  refine forUp_invariant (fun s2 => SameSize s2 t) _ _ _ ?_ hS
  intro x s2 hx hS2
  exact sameSize_trans ⟨Eq.refl _, Eq.refl _⟩ hS2

theorem parseEscTest_size (t : Term) (c : Int) : SameSize (parseEscTest t c) t := by
  unfold parseEscTest
  dsimp only
  split_ifs
  · exact handleControlCodes_size t c
  · exact sameSize_trans ⟨Eq.refl _, Eq.refl _⟩ (fillScreen_size t)
  · exact ⟨Eq.refl _, Eq.refl _⟩

theorem put_size (t : Term) (c : Int) : SameSize (put t c) t := by
  unfold put
  split
  · exact parseGround_size t c
  · exact parseEsc_size t c
  · exact parseEscCSI_size t c
  · exact parseEscStr_size t c
  · exact parseEscStrEnd_size t c
  · exact parseEscAltCharset_size t c
  · exact parseEscTest_size t c

theorem feed_size (t : Term) (cs : List Int) : SameSize (feed t cs) t := by
  induction cs generalizing t with
  | nil => exact sameSize_of_rfl
  | cons c rest ih => exact sameSize_trans (ih (put t c)) (put_size t c)

/-! ## Resize establishes the invariant; the fresh terminal satisfies it -/

theorem dims_resizeGrids (t1 : Term) (cols rows : Int) :
    Dims (resizeGrids t1 cols rows) := by
  unfold Dims resizeGrids overlapGrid
  dsimp only
  refine ⟨by simp, ?_, by simp, ?_, by simp, by rw [goCopy_length]; simp⟩ <;>
  · intro row hrow
    rw [List.mem_map] at hrow
    obtain ⟨i, hi, hrw⟩ := hrow
    subst hrw
    split
    · rw [goCopy_length, List.length_replicate]
    · rw [List.length_replicate]

theorem resizePass_inv (t : Term) (mc mr : Int) (h : Inv t) :
    Inv (resizePass t mc mr) := by
  unfold resizePass
  dsimp only
  apply swapScreen_inv
  split_ifs
  all_goals first
    | exact clear_inv _ _ _ _ _ (clear_inv _ _ _ _ _ h)
    | exact clear_inv _ _ _ _ _ h
    | exact h

theorem resize_inv_estab (t : Term) (cols rows : Int) (hc : 1 ≤ cols)
    (hr : 1 ≤ rows) (hne : ¬(cols = t.cols ∧ rows = t.rows)) :
    Inv (Resize t cols rows) := by
  unfold Resize
  rw [if_neg hne, if_neg (by omega)]
  dsimp only
  apply resizePass_inv
  apply resizePass_inv
  apply moveTo_inv
  · show Geom (setScroll (resizeGrids (resizeSlide t rows) cols rows) 0 (rows - 1))
    unfold Geom setScroll clamp resizeGrids
    dsimp only
    split_ifs <;> omega
  · exact dims_resizeGrids (resizeSlide t rows) cols rows

theorem resize_inv (t : Term) (cols rows : Int) (h : Inv t) :
    Inv (Resize t cols rows) := by
  by_cases h1 : cols = t.cols ∧ rows = t.rows
  · unfold Resize; rw [if_pos h1]; exact h
  · by_cases h2 : cols < 1 ∨ rows < 1
    · unfold Resize; rw [if_neg h1, if_pos h2]; exact h
    · exact resize_inv_estab t cols rows (by omega) (by omega) h1

theorem newTerm_ne_zero (cols rows : Int) (hc : 1 ≤ cols) :
    ¬(cols = ({ Term.zero with cur := { Cursor.zero with attr :=
        { Glyph.zero with fg := DefaultFG, bg := DefaultBG } } } : Term).cols ∧
      rows = ({ Term.zero with cur := { Cursor.zero with attr :=
        { Glyph.zero with fg := DefaultFG, bg := DefaultBG } } } : Term).rows) := by
  intro hx
  have h1 := hx.1
  have hz : ({ Term.zero with cur := { Cursor.zero with attr :=
      { Glyph.zero with fg := DefaultFG, bg := DefaultBG } } } : Term).cols = 0 := rfl
  rw [hz] at h1
  omega

theorem newTerm_inv (cols rows : Int) (hc : 1 ≤ cols) (hr : 1 ≤ rows) :
    Inv (newTerm cols rows) := by
  unfold newTerm
  dsimp only
  have h := resize_inv_estab
    { Term.zero with cur :=
      { Cursor.zero with attr := { Glyph.zero with fg := DefaultFG, bg := DefaultBG } } }
    cols rows hc hr (newTerm_ne_zero cols rows hc)
  exact reset_inv _ h.1 h.2.1

theorem resizePass_size (t : Term) (mc mr : Int) :
    SameSize (resizePass t mc mr) t := by
  unfold resizePass
  dsimp only
  split_ifs <;> exact ⟨Eq.refl _, Eq.refl _⟩

theorem resize_size_estab (t : Term) (cols rows : Int) (hc : 1 ≤ cols)
    (hr : 1 ≤ rows) (hne : ¬(cols = t.cols ∧ rows = t.rows)) :
    (Resize t cols rows).cols = cols ∧ (Resize t cols rows).rows = rows := by
  unfold Resize
  rw [if_neg hne, if_neg (by omega)]
  dsimp only
  refine ⟨?_, ?_⟩
  · exact (resizePass_size _ _ _).1.trans ((resizePass_size _ _ _).1.trans rfl)
  · exact (resizePass_size _ _ _).2.trans ((resizePass_size _ _ _).2.trans rfl)

theorem newTerm_size (cols rows : Int) (hc : 1 ≤ cols) (hr : 1 ≤ rows) :
    (newTerm cols rows).cols = cols ∧ (newTerm cols rows).rows = rows := by
  unfold newTerm
  dsimp only
  have h := resize_size_estab
    { Term.zero with cur :=
      { Cursor.zero with attr := { Glyph.zero with fg := DefaultFG, bg := DefaultBG } } }
    cols rows hc hr (newTerm_ne_zero cols rows hc)
  exact ⟨(reset_size _).1.trans h.1, (reset_size _).2.trans h.2⟩

/-! ## C1 -/

/-- C1: for every code-point stream fed to a freshly constructed terminal of
positive dimensions, after each fed code point the cursor satisfies
0 ≤ cur.x < cols and 0 ≤ cur.y < rows, and when origin mode is set
top ≤ cur.y ≤ bottom.  (Every prefix of a stream is itself a stream, so
quantifying over all streams covers the state after each code point; the
bytes of the public feeding call reach the dispatcher as exactly such a
code-point sequence.) -/
theorem c1_cursor_in_bounds (cols rows : Int) (hc : 1 ≤ cols) (hr : 1 ≤ rows)
    (cs : List Int) :
    0 ≤ (feed (newTerm cols rows) cs).cur.x ∧
    (feed (newTerm cols rows) cs).cur.x < cols ∧
    0 ≤ (feed (newTerm cols rows) cs).cur.y ∧
    (feed (newTerm cols rows) cs).cur.y < rows ∧
    ((feed (newTerm cols rows) cs).cur.origin = true →
      (feed (newTerm cols rows) cs).top ≤ (feed (newTerm cols rows) cs).cur.y ∧
      (feed (newTerm cols rows) cs).cur.y ≤ (feed (newTerm cols rows) cs).bottom) := by
  have hI := feed_inv (newTerm cols rows) cs (newTerm_inv cols rows hc hr)
  have hS := feed_size (newTerm cols rows) cs
  have hN := newTerm_size cols rows hc hr
  obtain ⟨x1, x2, y1, y2, ho⟩ := hI.2.2
  refine ⟨x1, ?_, y1, ?_, ho⟩
  · exact lt_of_lt_of_eq x2 (hS.1.trans hN.1)
  · exact lt_of_lt_of_eq y2 (hS.2.trans hN.2)

/-! ## C2: printable runs advance the cursor -/

theorem feed_nil (t : Term) : feed t [] = t := rfl

theorem feed_cons (t : Term) (c : Int) (cs : List Int) :
    feed t (c :: cs) = feed (put t c) cs := rfl

theorem put_ground (t : Term) (c : Int) (hg : t.state = TState.ground) :
    put t c = parseGround t c := by
  unfold put
  rw [hg]

theorem parseGround_printable (t : Term) (c : Int)
    (hcc : isControlCode c = false) : parseGround t c = printGlyph t c := by
  unfold parseGround
  rw [if_neg (by simp [hcc])]

theorem wrapStep_id (t : Term) (hw : t.cur.wrapNext = false) : wrapStep t = t := by
  unfold wrapStep
  rw [if_neg]
  simp [hw]

theorem printGlyph_noWrap (t : Term) (c : Int) (hw : t.cur.wrapNext = false) :
    printGlyph t c =
      (if (setChar t c t.cur.attr t.cur.x t.cur.y).cur.x + 1 <
          (setChar t c t.cur.attr t.cur.x t.cur.y).cols
       then moveTo (setChar t c t.cur.attr t.cur.x t.cur.y)
         ((setChar t c t.cur.attr t.cur.x t.cur.y).cur.x + 1)
         (setChar t c t.cur.attr t.cur.x t.cur.y).cur.y
       else { setChar t c t.cur.attr t.cur.x t.cur.y with
              cur := { (setChar t c t.cur.attr t.cur.x t.cur.y).cur with
                       wrapNext := true } }) := by
  unfold printGlyph
  rw [wrapStep_id t hw]

/-- C2: starting in Ground with wrapNext clear, writing n printable code
points with x + n ≤ cols (so that no wrap fires) advances cur.x by
min(n, cols-1-x), and wrapNext ends set exactly when the run reached the
rightmost column (x + n = cols). -/
theorem c2_printable_run (t : Term) (cs : List Int)
    (hg : t.state = TState.ground) (hw : t.cur.wrapNext = false)
    (hp : ∀ c ∈ cs, isControlCode c = false)
    (hn : t.cur.x + (cs.length : Int) ≤ t.cols) (hI : Inv t) :
    (feed t cs).cur.x = t.cur.x + min (cs.length : Int) (t.cols - 1 - t.cur.x) ∧
    ((feed t cs).cur.wrapNext = true ↔ t.cur.x + (cs.length : Int) = t.cols) := by
  induction cs generalizing t with
  | nil =>
    obtain ⟨hG, hD, ⟨hx0, hx1, hy0, hy1, ho⟩⟩ := hI
    constructor
    · rw [feed_nil]
      simp only [List.length_nil, Nat.cast_zero]
      rw [min_def]
      split_ifs <;> omega
    · rw [feed_nil, hw]
      simp only [List.length_nil, Nat.cast_zero, add_zero]
      constructor
      · intro h
        simp at h
      · intro hx
        exact absurd hx (by omega)
  | cons c rest ih =>
    obtain ⟨hG, hD, hC⟩ := hI
    obtain ⟨hcols1, hrows1, htop, htb, hbr⟩ := hG
    obtain ⟨hx0, hx1, hy0, hy1, ho⟩ := hC
    have hcc : isControlCode c = false := hp c (List.mem_cons_self c rest)
    have hput : put t c = printGlyph t c := by
      rw [put_ground t c hg]
      exact parseGround_printable t c hcc
    have hlen : (((c :: rest).length : Nat) : Int) = (rest.length : Int) + 1 := by
      simp
    have ht2cur : (setChar t c t.cur.attr t.cur.x t.cur.y).cur = t.cur := rfl
    have ht2cols : (setChar t c t.cur.attr t.cur.x t.cur.y).cols = t.cols := rfl
    by_cases hlt : t.cur.x + 1 < t.cols
    · -- the cursor advances one column and the run continues
      have hcond : (setChar t c t.cur.attr t.cur.x t.cur.y).cur.x + 1 <
          (setChar t c t.cur.attr t.cur.x t.cur.y).cols := by
        rw [ht2cur, ht2cols]; exact hlt
      have hput2 : put t c =
          moveTo (setChar t c t.cur.attr t.cur.x t.cur.y)
            ((setChar t c t.cur.attr t.cur.x t.cur.y).cur.x + 1)
            (setChar t c t.cur.attr t.cur.x t.cur.y).cur.y := by
        rw [hput, printGlyph_noWrap t c hw, if_pos hcond]
      have hI2 : Inv (put t c) := put_inv t c ⟨⟨hcols1, hrows1, htop, htb, hbr⟩,
        hD, ⟨hx0, hx1, hy0, hy1, ho⟩⟩
      have hx' : (put t c).cur.x = t.cur.x + 1 := by
        rw [hput2]
        unfold moveTo clamp
        dsimp only
        rw [ht2cur, ht2cols]
        split_ifs <;> omega
      have hy' : (put t c).cur.y = t.cur.y := by
        rw [hput2]
        unfold moveTo clamp
        dsimp only
        rw [ht2cur]
        have hrows2 : (setChar t c t.cur.attr t.cur.x t.cur.y).rows = t.rows := rfl
        have hb2 : (setChar t c t.cur.attr t.cur.x t.cur.y).bottom = t.bottom := rfl
        have ht2 : (setChar t c t.cur.attr t.cur.x t.cur.y).top = t.top := rfl
        rw [hrows2, hb2, ht2]
        cases horig : t.cur.origin
        · split_ifs <;> first | omega | simp_all
        · have hot := ho (by rw [horig])
          split_ifs <;> omega
      have hst' : (put t c).state = TState.ground := by
        rw [hput2]
        exact hg
      have hwn' : (put t c).cur.wrapNext = false := by
        rw [hput2]
        rfl
      have hsz : SameSize (put t c) t := put_size t c
      have hn2 : t.cur.x + ((rest.length : Int) + 1) ≤ t.cols := by
        rw [hlen] at hn
        omega
      have hn' : (put t c).cur.x + (rest.length : Int) ≤ (put t c).cols := by
        rw [hx', hsz.1]
        omega
      have hres := ih (put t c) hst' hwn'
        (fun d hd => hp d (List.mem_cons_of_mem c hd)) hn' hI2
      rw [feed_cons]
      constructor
      · have h1 := hres.1
        rw [hx', hsz.1] at h1
        rw [h1, hlen, min_def, min_def]
        split_ifs <;> omega
      · have h2 := hres.2
        rw [hx', hsz.1] at h2
        refine h2.trans ?_
        rw [hlen]
        constructor <;> intro <;> omega
    · -- the run is at the rightmost column: wrapNext is set, nothing else
      have hxe : t.cur.x + 1 = t.cols := by omega
      have hrest : rest = [] := by
        rw [hlen] at hn
        have h0 : rest.length = 0 := by omega
        exact List.eq_nil_of_length_eq_zero h0
      subst hrest
      have hcond : ¬((setChar t c t.cur.attr t.cur.x t.cur.y).cur.x + 1 <
          (setChar t c t.cur.attr t.cur.x t.cur.y).cols) := by
        rw [ht2cur, ht2cols]; omega
      have hput2 : put t c =
          { setChar t c t.cur.attr t.cur.x t.cur.y with
            cur := { (setChar t c t.cur.attr t.cur.x t.cur.y).cur with
                     wrapNext := true } } := by
        rw [hput, printGlyph_noWrap t c hw, if_neg hcond]
      rw [feed_cons, hput2, feed_nil]
      constructor
      · show t.cur.x = t.cur.x + min (((List.length [c] : Nat) : Int)) (t.cols - 1 - t.cur.x)
        simp only [List.length_cons, List.length_nil, Nat.cast_one, Nat.cast_ofNat,
          Nat.cast_zero, Nat.zero_add, Nat.cast_succ]
        rw [min_def]
        split_ifs <;> omega
      · constructor
        · intro _
          simp only [List.length_cons, List.length_nil]
          omega
        · intro _
          rfl

/-- Inv is decidable, so witnesses can discharge it on concrete states. -/
instance (t : Term) : Decidable (Inv t) := by
  unfold Inv Geom Dims CurOK
  infer_instance

/-- C2 witness: writing exactly cols printable characters from column 0 of
a fresh terminal leaves cur.x = cols-1 with wrapNext set. -/
theorem c2_printable_run_witness :
    (feed (newTerm 3 2) [65, 66, 67]).cur.x =
      (newTerm 3 2).cur.x + min ((3 : Nat) : Int) ((newTerm 3 2).cols - 1 - (newTerm 3 2).cur.x) ∧
    ((feed (newTerm 3 2) [65, 66, 67]).cur.wrapNext = true ↔
      (newTerm 3 2).cur.x + ((3 : Nat) : Int) = (newTerm 3 2).cols) :=
  c2_printable_run (newTerm 3 2) [65, 66, 67] (by decide) (by decide)
    (by decide) (by decide) (by decide)

/-! ## C3: CSI private mode 25 (DECTCEM) -/

/-- C3: feeding ESC [ ? 25 l to a fresh terminal leaves cursor_hidden()
false, and so does the subsequent ESC [ ? 25 h (the claim says the first
makes it true): handleCSI's 'l' and 'h' cases are empty TODO stubs in
csi.go, so no mode is ever set or reset by a CSI.  The last two conjuncts
evaluate setMode, the fully-implemented callee named by the commented-out
tsetmode calls: it implements exactly the claimed inverse-sense toggle, but
is never invoked. -/
theorem c3_hide_cursor_stubbed :
    CursorHidden (feed (newTerm 4 3) [0x1B, 0x5B, 0x3F, 0x32, 0x35, 0x6C]) = false ∧
    CursorHidden (feed (feed (newTerm 4 3) [0x1B, 0x5B, 0x3F, 0x32, 0x35, 0x6C])
      [0x1B, 0x5B, 0x3F, 0x32, 0x35, 0x68]) = false ∧
    (setMode (newTerm 4 3) true false [25]).mode.hide = true ∧
    (setMode (newTerm 4 3) true true [25]).mode.hide = false := by
  decide

/-! ## C5: reset versus a fresh terminal -/

/-- C5: after writing "AB" to a fresh 3-by-1 terminal and sending RIS
(ESC c), the state is not the fresh state: reset's clear transposes its
x/y arguments (t.clear(0, 0, t.rows-1, t.cols-1)), so cell (1,0) still
holds 'B' while a fresh terminal has a blank there; independently, the
CSI accumulator's priv flag survives reset, as the last two conjuncts show
after ESC [ ? 25 l followed by ESC c. -/
theorem c5_reset_not_fresh :
    feed (newTerm 3 1) [65, 66, 0x1B, 0x63] ≠ newTerm 3 1 ∧
    Cell (feed (newTerm 3 1) [65, 66, 0x1B, 0x63]) 1 0 =
      some (66, DefaultFG, DefaultBG) ∧
    Cell (newTerm 3 1) 1 0 = some (0x20, DefaultFG, DefaultBG) ∧
    (feed (newTerm 4 3) [0x1B, 0x5B, 0x3F, 0x32, 0x35, 0x6C, 0x1B, 0x63]).csi.priv = true ∧
    (newTerm 4 3).csi.priv = false := by
  decide

/-! ## C6: control codes inside CSI and STR sequences -/

/-- C6 counterexample: a line feed (0x0A) inside an OSC string is appended
to the STR buffer and not executed (the cursor stays at the origin), and
the unrecognized control 0x01 inside a CSI sequence is absorbed into the
CSI buffer; the claim says every control code is executed immediately
rather than absorbed. -/
theorem c6_counterexample_str_absorbs :
    (feed (newTerm 4 3) [0x1B, 0x5D, 0x0A]).cur.y = 0 ∧
    (feed (newTerm 4 3) [0x1B, 0x5D, 0x0A]).cur.x = 0 ∧
    (feed (newTerm 4 3) [0x1B, 0x5D, 0x0A]).str.buf = [0x0A] ∧
    (feed (newTerm 4 3) [0x1B, 0x5B, 0x01]).csi.buf = [0x01] := by
  decide

/-- The buffer is kept across csiParse. -/
theorem csiParse_buf (e : CsiEscape) : (csiParse e).buf = e.buf := by
  unfold csiParse
  cases e.buf with
  | nil => rfl
  | cons b rest =>
    dsimp only
    split <;> rfl

/-- The first component of csiPut extends the buffer by the byte. -/
theorem csiPut_buf (e : CsiEscape) (b : Nat) :
    (csiPut e b).1.buf = e.buf ++ [b] := by
  unfold csiPut
  dsimp only
  split_ifs
  · rw [csiParse_buf]
  · rfl

/-- C6 amended: inside a CSI sequence, the control codes recognized by
handleControlCodes are executed immediately and the CSI buffer is not
extended by them; control codes the handler does not recognize are
appended to the CSI buffer with the cursor untouched.  Inside a STR
sequence nothing is executed: ESC switches to StrEnd, BEL terminates the
string, and every other code point - control codes included - is appended
to the STR buffer. -/
theorem c6_amended_controls_in_sequences :
    (∀ (t : Term) (c : Int), t.state = TState.escCSI →
      (handleControlCodes t c).2 = true → put t c = (handleControlCodes t c).1) ∧
    (∀ (t : Term) (c : Int), t.state = TState.escCSI →
      (handleControlCodes t c).2 = false →
      (put t c).csi.buf = t.csi.buf ++ [byteOf c] ∧ (put t c).cur = t.cur) ∧
    (∀ (t : Term) (c : Int), t.state = TState.escStr →
      (c = 0x1B → put t c = { t with state := TState.escStrEnd }) ∧
      (c = 0x07 → put t c = handleSTR { t with state := TState.ground }) ∧
      (c ≠ 0x1B → c ≠ 0x07 → put t c = { t with str := strPut t.str c })) := by
  refine ⟨?_, ?_, ?_⟩
  · intro t c hst h2
    unfold put
    rw [hst]
    show parseEscCSI t c = (handleControlCodes t c).1
    unfold parseEscCSI
    dsimp only
    rw [if_pos h2]
  · intro t c hst h2
    unfold put
    rw [hst]
    show (parseEscCSI t c).csi.buf = t.csi.buf ++ [byteOf c] ∧
      (parseEscCSI t c).cur = t.cur
    unfold parseEscCSI
    dsimp only
    rw [if_neg (by rw [h2]; exact Bool.false_ne_true)]
    constructor
    · split
      · show (csiPut t.csi (byteOf c)).1.buf = t.csi.buf ++ [byteOf c]
        exact csiPut_buf t.csi (byteOf c)
      · show (csiPut t.csi (byteOf c)).1.buf = t.csi.buf ++ [byteOf c]
        exact csiPut_buf t.csi (byteOf c)
    · split <;> rfl
  · intro t c hst
    have hput : put t c = parseEscStr t c := by unfold put; rw [hst]
    refine ⟨?_, ?_, ?_⟩
    · intro hc
      rw [hput]
      unfold parseEscStr
      rw [if_pos hc]
    · intro hc
      rw [hput]
      unfold parseEscStr
      rw [if_neg (by rw [hc]; omega), if_pos hc]
    · intro hc1 hc2
      rw [hput]
      unfold parseEscStr
      rw [if_neg hc1, if_neg hc2]

/-- C6 amended witness: CR inside a CSI is executed (the whole step equals
the control handler's result), 0x01 inside a CSI is buffered, LF inside an
OSC string is buffered. -/
theorem c6_amended_witness :
    put (feed (newTerm 4 3) [0x1B, 0x5B]) 0x0D =
      (handleControlCodes (feed (newTerm 4 3) [0x1B, 0x5B]) 0x0D).1 ∧
    (put (feed (newTerm 4 3) [0x1B, 0x5B]) 0x01).csi.buf =
      (feed (newTerm 4 3) [0x1B, 0x5B]).csi.buf ++ [byteOf 0x01] ∧
    put (feed (newTerm 4 3) [0x1B, 0x5D]) 0x0A =
      { feed (newTerm 4 3) [0x1B, 0x5D] with
        str := strPut (feed (newTerm 4 3) [0x1B, 0x5D]).str 0x0A } :=
  ⟨c6_amended_controls_in_sequences.1 (feed (newTerm 4 3) [0x1B, 0x5B]) 0x0D
      (by decide) (by decide),
   (c6_amended_controls_in_sequences.2.1 (feed (newTerm 4 3) [0x1B, 0x5B]) 0x01
      (by decide) (by decide)).1,
   (c6_amended_controls_in_sequences.2.2 (feed (newTerm 4 3) [0x1B, 0x5D]) 0x0A
      (by decide)).2.2 (by decide) (by decide)⟩

/-! ## C8: the bright-bold upgrade -/

/-- Read a cell of a grid (row y, column x). -/
def gridGet (g : List (List Glyph)) (x y : Int) : Glyph :=
  goGetD (goGetD g y []) x Glyph.zero

/-- C8 counterexample: placing 'A' through a bold template with fg = 2 on a
fresh terminal stores fg = 10, not the template's 2: the +8 bright-bold
upgrade of the VT setChar is applied unconditionally (the options gate is
commented out in the source), so it fires in the default configuration. -/
theorem c8_counterexample_brightbold :
    (Cell (setChar (newTerm 2 1) 65
        ⟨0, ⟨false, false, true, false, false, false, false⟩, 2, 0⟩ 0 0) 0 0) =
      some (65, 10, 0) ∧
    ¬((Cell (setChar (newTerm 2 1) 65
        ⟨0, ⟨false, false, true, false, false, false, false⟩, 2, 0⟩ 0 0) 0 0) =
      some (65, 2, 0)) := by
  decide

instance (t : Term) : Decidable (Dims t) := by
  unfold Dims
  infer_instance

/-- C8 amended: the VT setChar stores fg+8 whenever the template has bold
set and fg < 8, with no configuration toggle; the term.go setChar variant
always stores the template's fg unchanged. -/
theorem c8_amended_brightbold (t : Term) (ch : Int) (attr : Glyph) (x y : Int)
    (hD : Dims t) (hx0 : 0 ≤ x) (hx1 : x < t.cols) (hy0 : 0 ≤ y) (hy1 : y < t.rows) :
    (gridGet (setChar t ch attr x y).lines x y).fg =
      (if attr.mode.bold ∧ attr.fg < 8 then attr.fg + 8 else attr.fg) ∧
    (gridGet (setCharTermVariant t ch attr x y).lines x y).fg = attr.fg := by
  obtain ⟨d1, d2, _⟩ := hD
  have hyb : y.toNat < t.lines.length := by rw [d1]; omega
  have hrow : (goGetD t.lines y []).length = t.cols.toNat :=
    d2 _ (goGetD_mem _ _ _ hy0 hyb)
  have hxb : x.toNat < (goGetD t.lines y []).length := by rw [hrow]; omega
  constructor
  · unfold setChar gridGet
    dsimp only
    rw [goGetD_goSet_self _ _ _ _ hy0 hyb, goGetD_goSet_self _ _ _ _ hx0 hxb]
    split_ifs <;> rfl
  · unfold setCharTermVariant gridGet
    dsimp only
    rw [goGetD_goSet_self _ _ _ _ hy0 hyb, goGetD_goSet_self _ _ _ _ hx0 hxb]

/-- C8 amended witness at a concrete bold template. -/
theorem c8_amended_brightbold_witness :
    (gridGet (setChar (newTerm 2 1) 65
        ⟨0, ⟨false, false, true, false, false, false, false⟩, 2, 0⟩ 0 0).lines 0 0).fg =
      (if (⟨0, ⟨false, false, true, false, false, false, false⟩, 2, 0⟩ : Glyph).mode.bold ∧
          (⟨0, ⟨false, false, true, false, false, false, false⟩, 2, 0⟩ : Glyph).fg < 8
       then (⟨0, ⟨false, false, true, false, false, false, false⟩, 2, 0⟩ : Glyph).fg + 8
       else (⟨0, ⟨false, false, true, false, false, false, false⟩, 2, 0⟩ : Glyph).fg) ∧
    (gridGet (setCharTermVariant (newTerm 2 1) 65
        ⟨0, ⟨false, false, true, false, false, false, false⟩, 2, 0⟩ 0 0).lines 0 0).fg =
      (⟨0, ⟨false, false, true, false, false, false, false⟩, 2, 0⟩ : Glyph).fg :=
  c8_amended_brightbold (newTerm 2 1) 65
    ⟨0, ⟨false, false, true, false, false, false, false⟩, 2, 0⟩ 0 0
    (by decide) (by decide) (by decide) (by decide) (by decide)

/-! ## C9: the CSI private flag is monotone -/

/-- The priv flag after csiParse: set when the body starts with '?',
otherwise whatever it already was - never cleared. -/
theorem csiParse_priv (e : CsiEscape) :
    (csiParse e).priv = (e.priv || decide (e.buf.head? = some 0x3F)) := by
  unfold csiParse
  cases hb : e.buf with
  | nil => simp
  | cons b rest =>
    dsimp only
    split
    · by_cases h3 : b = 0x3F <;> simp [h3]
    · by_cases h3 : b = 0x3F <;> simp [h3]

/-- C9: csiEscape.reset keeps priv, csiParse never clears it and sets it on
a leading '?', so once one private CSI sequence has been parsed every later
parse reports priv = true; the last conjuncts exhibit this on the machine:
after ESC [ ? 2 5 l followed by ESC [ 2 J, the parsed accumulator holds the
body "2J" with no '?' and still reports priv = true. -/
theorem c9_csi_private_flag_monotone :
    (∀ e : CsiEscape, (csiReset e).priv = e.priv) ∧
    (∀ e : CsiEscape, e.priv = true → (csiParse e).priv = true) ∧
    (∀ e : CsiEscape, e.buf.head? = some 0x3F → (csiParse e).priv = true) ∧
    ((feed (newTerm 4 3)
        [0x1B, 0x5B, 0x3F, 0x32, 0x35, 0x6C, 0x1B, 0x5B, 0x32, 0x4A]).csi.priv = true ∧
     (feed (newTerm 4 3)
        [0x1B, 0x5B, 0x3F, 0x32, 0x35, 0x6C, 0x1B, 0x5B, 0x32, 0x4A]).csi.buf = [0x32, 0x4A]) := by
  refine ⟨fun e => rfl, ?_, ?_, by decide⟩
  · intro e hp
    rw [csiParse_priv, hp]
    simp
  · intro e hh
    rw [csiParse_priv, hh]
    simp

/-- C9 witness: the monotonicity conjuncts applied at concrete accumulators
(a parse of "l" on an accumulator with priv already set, and a parse of
"?25l" on a fresh one). -/
theorem c9_csi_private_flag_monotone_witness :
    (csiParse ⟨[0x6C], [], 0, true⟩).priv = true ∧
    (csiParse ⟨[0x3F, 0x32, 0x35, 0x6C], [], 0, false⟩).priv = true :=
  ⟨c9_csi_private_flag_monotone.2.1 ⟨[0x6C], [], 0, true⟩ rfl,
   c9_csi_private_flag_monotone.2.2.1 ⟨[0x3F, 0x32, 0x35, 0x6C], [], 0, false⟩ rfl⟩

/-! ## C10: Cell performs no bounds checking -/

theorem lookupO_mem {α : Type} (l : List α) (n : Nat) (a : α)
    (h : lookupO l n = some a) : a ∈ l := by
  induction l generalizing n with
  | nil => simp [lookupO] at h
  | cons x xs ih =>
    cases n with
    | zero =>
      rw [lookupO] at h
      exact (Option.some_inj.1 h) ▸ List.mem_cons_self x xs
    | succ m => exact List.mem_cons_of_mem x (ih m h)

/-- C10: the public Cell read does no bounds checking of its own: with the
invariant, any in-bounds (x, y) indexes inside the grid (the lookup cannot
fail and the modelled panic branch is unreachable), while any out-of-bounds
pair makes the Go code panic, modelled here as none. -/
theorem c10_cell_unchecked (t : Term) (x y : Int) (hI : Inv t) :
    ((0 ≤ x ∧ x < t.cols ∧ 0 ≤ y ∧ y < t.rows) → (Cell t x y).isSome = true) ∧
    (¬(0 ≤ x ∧ x < t.cols ∧ 0 ≤ y ∧ y < t.rows) → Cell t x y = none) := by
  obtain ⟨⟨hc1, hr1, _, _, _⟩, ⟨d1, d2, _⟩, _⟩ := hI
  constructor
  · rintro ⟨hx0, hx1, hy0, hy1⟩
    have hyb : y.toNat < t.lines.length := by rw [d1]; omega
    obtain ⟨row, hrow⟩ := Option.isSome_iff_exists.1 (lookupO_isSome t.lines y.toNat hyb)
    have hlen : row.length = t.cols.toNat := d2 row (lookupO_mem _ _ _ hrow)
    have hxb : x.toNat < row.length := by rw [hlen]; omega
    obtain ⟨g, hg⟩ := Option.isSome_iff_exists.1 (lookupO_isSome row x.toNat hxb)
    unfold Cell goGet
    rw [if_neg (by omega), hrow]
    dsimp only
    rw [if_neg (by omega), hg]
    rfl
  · intro hnb
    by_cases hy0 : 0 ≤ y
    · by_cases hy1 : y < t.rows
      · have hx : x < 0 ∨ t.cols ≤ x := by
          by_cases a1 : 0 ≤ x
          · right
            by_cases a2 : x < t.cols
            · exact absurd ⟨a1, a2, hy0, hy1⟩ hnb
            · omega
          · left; omega
        have hyb : y.toNat < t.lines.length := by rw [d1]; omega
        obtain ⟨row, hrow⟩ :=
          Option.isSome_iff_exists.1 (lookupO_isSome t.lines y.toNat hyb)
        have hlen : row.length = t.cols.toNat := d2 row (lookupO_mem _ _ _ hrow)
        unfold Cell goGet
        rw [if_neg (by omega), hrow]
        dsimp only
        rcases hx with hx | hx
        · rw [if_pos (by omega)]
        · rw [if_neg (by omega), lookupO_ge row x.toNat (by rw [hlen]; omega)]
      · unfold Cell goGet
        rw [if_neg (by omega), lookupO_ge t.lines y.toNat (by rw [d1]; omega)]
    · unfold Cell goGet
      rw [if_pos (by omega)]

/-- C10 witness: on a fresh 2-by-2 terminal, the in-bounds read (0,0)
returns a value and the out-of-bounds read (5,0) faults. -/
theorem c10_cell_unchecked_witness :
    (Cell (newTerm 2 2) 0 0).isSome = true ∧ Cell (newTerm 2 2) 5 0 = none :=
  ⟨(c10_cell_unchecked (newTerm 2 2) 0 0 (by decide)).1 (by decide),
   (c10_cell_unchecked (newTerm 2 2) 5 0 (by decide)).2 (by decide)⟩

/-! ## C7: partial UTF-8 input -/

/-- One step of the Write loop on a nonempty input with fuel left. -/
theorem writeLoop_succ (fuel : Nat) (t : Term) (b : Nat) (bs : List Nat) (w : Int) :
    writeLoop (fuel + 1) t (b :: bs) w =
      (if (decodeRune (b :: bs)).1 = 0xFFFD ∧ (decodeRune (b :: bs)).2 = 1 then
        if (b :: bs).drop (decodeRune (b :: bs)).2 = [] then
          (t, w + Int.ofNat (decodeRune (b :: bs)).2 - 1)
        else writeLoop fuel t ((b :: bs).drop (decodeRune (b :: bs)).2)
          (w + Int.ofNat (decodeRune (b :: bs)).2)
      else writeLoop fuel (put t (decodeRune (b :: bs)).1)
        ((b :: bs).drop (decodeRune (b :: bs)).2)
        (w + Int.ofNat (decodeRune (b :: bs)).2)) := rfl

/-- C7: for any terminal state, writing only the first byte of a 2-byte
UTF-8 sequence consumes nothing (the decoder yields a size-1 replacement at
the end of the input, so Write gives the byte back and the state is
untouched), and then writing the complete two bytes equals exactly one put
of the decoded code point with both bytes consumed.  The closing conjuncts
run the complete sequence 0xC3 0xA9 on a fresh terminal: the cell at the
origin holds the decoded U+00E9 once, the next cell is still blank, and the
cursor advanced by exactly one column. -/
theorem c7_partial_utf8 (t : Term) (b0 b1 : Nat)
    (h0 : 0xC2 ≤ b0) (h1 : b0 ≤ 0xDF) (h2 : 0x80 ≤ b1) (h3 : b1 ≤ 0xBF) :
    Write t [b0] = (t, 0) ∧
    Write t [b0, b1] = (put t (Int.ofNat ((b0 % 0x20) * 0x40 + b1 % 0x40)), 2) ∧
    Cell (Write (newTerm 4 3) [0xC3, 0xA9]).1 0 0 = some (0xE9, DefaultFG, DefaultBG) ∧
    Cell (Write (newTerm 4 3) [0xC3, 0xA9]).1 1 0 = some (0x20, DefaultFG, DefaultBG) ∧
    (Write (newTerm 4 3) [0xC3, 0xA9]).1.cur.x = 1 := by
  have hd1 : decodeRune [b0] = (0xFFFD, 1) := by
    simp only [decodeRune]
    rw [if_neg (by omega), if_neg (by omega)]
  have hlo : acceptLo b0 = 0x80 := by
    unfold acceptLo
    rw [if_neg (by omega), if_neg (by omega)]
  have hhi : acceptHi b0 = 0xBF := by
    unfold acceptHi
    rw [if_neg (by omega), if_neg (by omega)]
  have hd2 : decodeRune [b0, b1] = (Int.ofNat ((b0 % 0x20) * 0x40 + b1 % 0x40), 2) := by
    simp only [decodeRune]
    rw [if_neg (by omega), if_neg (by omega)]
    rw [hlo, hhi, if_neg (by omega), if_pos (by omega)]
  refine ⟨?_, ?_, by decide, by decide, by decide⟩
  · show writeLoop (0 + 1) t [b0] 0 = (t, 0)
    rw [writeLoop_succ, hd1]
    rfl
  · show writeLoop (1 + 1) t [b0, b1] 0 =
      (put t (Int.ofNat ((b0 % 0x20) * 0x40 + b1 % 0x40)), 2)
    rw [writeLoop_succ, hd2, if_neg (by simp)]
    rfl

/-- C7 witness at the concrete bytes of U+00E9. -/
theorem c7_partial_utf8_witness :
    Write (newTerm 4 3) [0xC3] = (newTerm 4 3, 0) ∧
    Write (newTerm 4 3) [0xC3, 0xA9] =
      (put (newTerm 4 3) (Int.ofNat ((0xC3 % 0x20) * 0x40 + 0xA9 % 0x40)), 2) :=
  ⟨(c7_partial_utf8 (newTerm 4 3) 0xC3 0xA9 (by decide) (by decide) (by decide)
      (by decide)).1,
   (c7_partial_utf8 (newTerm 4 3) 0xC3 0xA9 (by decide) (by decide) (by decide)
      (by decide)).2.1⟩

/-! ## C4 support: cell-level views of clear, overlapGrid, the slide and
resizePass -/

theorem clamp_id (v lo hi : Int) (h1 : lo ≤ v) (h2 : v ≤ hi) :
    clamp v lo hi = v := by
  unfold clamp
  rw [if_neg (by omega), if_neg (by omega)]

theorem gridGet_eq_lookupD (g : List (List Glyph)) (x y : Int)
    (hx : 0 ≤ x) (hy : 0 ≤ y) :
    gridGet g x y = lookupD (lookupD g y.toNat []) x.toNat Glyph.zero := by
  unfold gridGet goGetD
  rw [if_neg (by omega), if_neg (by omega)]

/-- The cell content of a clear whose rectangle is already ordered and
inside the screen: blank with the current attribute inside the rectangle,
untouched outside. -/
theorem gridGet_clear (t : Term) (x0 y0 x1 y1 x y : Int)
    (ha0 : 0 ≤ x0) (ha1 : x0 ≤ x1) (ha2 : x1 ≤ t.cols - 1)
    (hb0 : 0 ≤ y0) (hb1 : y0 ≤ y1) (hb2 : y1 ≤ t.rows - 1)
    (hx : 0 ≤ x) (hy : 0 ≤ y)
    (hyl : y.toNat < t.lines.length)
    (hxl : x.toNat < (lookupD t.lines y.toNat []).length) :
    gridGet (clear t x0 y0 x1 y1).lines x y =
      if x0 ≤ x ∧ x ≤ x1 ∧ y0 ≤ y ∧ y ≤ y1 then { t.cur.attr with c := 0x20 }
      else gridGet t.lines x y := by
  have hyy : (0 : Int) + Int.ofNat y.toNat = y := by
    simp only [Int.ofNat_eq_coe]; omega
  have hxx : (0 : Int) + Int.ofNat x.toNat = x := by
    simp only [Int.ofNat_eq_coe]; omega
  have hq : (if y0 > y1 then (y1, y0) else (y0, y1)) = (y0, y1) := if_neg (by omega)
  have hp : (if x0 > x1 then (x1, x0) else (x0, x1)) = (x0, x1) := if_neg (by omega)
  rw [gridGet_eq_lookupD _ _ _ hx hy]
  unfold clear
  dsimp only
  simp only [idxMap]
  rw [lookupD_idxGo _ _ _ _ _ hyl]
  rw [hyy, hq]
  dsimp only
  rw [clamp_id y0 0 (t.rows - 1) hb0 (by omega), clamp_id y1 0 (t.rows - 1) (by omega) hb2]
  by_cases hyin : y0 ≤ y ∧ y ≤ y1
  · rw [if_pos hyin]
    rw [lookupD_idxGo _ _ _ _ _ hxl]
    rw [hxx, hp]
    dsimp only
    rw [clamp_id x0 0 (t.cols - 1) ha0 (by omega),
        clamp_id x1 0 (t.cols - 1) (by omega) ha2]
    by_cases hxin : x0 ≤ x ∧ x ≤ x1
    · rw [if_pos hxin, if_pos ⟨hxin.1, hxin.2, hyin.1, hyin.2⟩]
    · rw [if_neg hxin, if_neg (by omega), gridGet_eq_lookupD _ _ _ hx hy]
  · rw [if_neg hyin, if_neg (by omega), gridGet_eq_lookupD _ _ _ hx hy]

theorem clear_lines_length (t : Term) (a b c d : Int) :
    (clear t a b c d).lines.length = t.lines.length := by
  unfold clear
  dsimp only
  simp [idxMap, idxGo_length]

theorem clear_rows (t : Term) (a b c d : Int) (k : Nat)
    (h : ∀ r ∈ t.lines, r.length = k) :
    ∀ r ∈ (clear t a b c d).lines, r.length = k := by
  intro r hr
  unfold clear at hr
  dsimp only at hr
  simp only [idxMap] at hr
  obtain ⟨j, a0, ha0, hb⟩ := mem_idxGo _ _ _ _ hr
  subst hb
  rw [apply_ite List.length, idxGo_length]
  simp only [ite_self]
  exact h a0 ha0

theorem overlapGrid_length (old : List (List Glyph)) (cols rows minrows : Int) :
    (overlapGrid old cols rows minrows).length = rows.toNat := by
  simp [overlapGrid]

theorem overlapGrid_rows (old : List (List Glyph)) (cols rows minrows : Int) :
    ∀ r ∈ overlapGrid old cols rows minrows, r.length = cols.toNat := by
  intro r hr
  simp only [overlapGrid, List.mem_map] at hr
  obtain ⟨i, _, hb⟩ := hr
  subst hb
  split_ifs
  · rw [goCopy_length, List.length_replicate]
  · rw [List.length_replicate]

/-- The cell content of the freshly allocated overlap grid: the old cell on
the copied region, the zero glyph everywhere else. -/
theorem gridGet_overlapGrid (old : List (List Glyph)) (cols rows minrows x y : Int)
    (hx : 0 ≤ x) (hxc : x < cols) (hy : 0 ≤ y) (hyr : y < rows) :
    gridGet (overlapGrid old cols rows minrows) x y =
      if y < minrows ∧ x.toNat < (lookupD old y.toNat []).length
      then gridGet old x y else Glyph.zero := by
  have hyy : Int.ofNat y.toNat = y := by simp only [Int.ofNat_eq_coe]; omega
  rw [gridGet_eq_lookupD _ _ _ hx hy]
  unfold overlapGrid
  rw [lookupD_rangeMap _ _ _ _ (by omega : y.toNat < rows.toNat)]
  rw [hyy]
  by_cases hym : y < minrows
  · rw [if_pos hym, lookupD_goCopy]
    simp only [List.length_replicate]
    by_cases hxo : x.toNat < (lookupD old y.toNat []).length
    · rw [if_pos ⟨by omega, hxo⟩, if_pos ⟨hym, hxo⟩, gridGet_eq_lookupD _ _ _ hx hy]
    · rw [if_neg (fun h => hxo h.2), if_neg (fun h => hxo h.2), lookupD_replicate,
          if_pos (by omega)]
  · rw [if_neg hym, lookupD_replicate, if_pos (by omega),
        if_neg (fun h => hym h.1)]

theorem resizeSlide_lines (t : Term) (rows : Int) :
    (resizeSlide t rows).lines =
      (if t.cur.y - rows + 1 > 0
       then goCopy t.lines
         (goSlice t.lines (t.cur.y - rows + 1) (t.cur.y - rows + 1 + rows))
       else t.lines) := by
  unfold resizeSlide
  dsimp only
  split_ifs <;> rfl

theorem resizeSlide_altLines (t : Term) (rows : Int) :
    (resizeSlide t rows).altLines =
      (if t.cur.y - rows + 1 > 0
       then goCopy t.altLines
         (goSlice t.altLines (t.cur.y - rows + 1) (t.cur.y - rows + 1 + rows))
       else t.altLines) := by
  unfold resizeSlide
  dsimp only
  split_ifs <;> rfl

theorem resizeSlide_cols (t : Term) (rows : Int) :
    (resizeSlide t rows).cols = t.cols := by
  unfold resizeSlide; dsimp only; split_ifs <;> rfl

theorem resizeSlide_rows (t : Term) (rows : Int) :
    (resizeSlide t rows).rows = t.rows := by
  unfold resizeSlide; dsimp only; split_ifs <;> rfl

theorem resizeSlide_cur (t : Term) (rows : Int) :
    (resizeSlide t rows).cur = t.cur := by
  unfold resizeSlide; dsimp only; split_ifs <;> rfl

theorem resizeSlide_lines_length (t : Term) (rows : Int) :
    (resizeSlide t rows).lines.length = t.lines.length := by
  rw [resizeSlide_lines]
  split_ifs
  · rw [goCopy_length]
  · rfl

theorem resizeSlide_altLines_length (t : Term) (rows : Int) :
    (resizeSlide t rows).altLines.length = t.altLines.length := by
  rw [resizeSlide_altLines]
  split_ifs
  · rw [goCopy_length]
  · rfl

theorem resizeSlide_lines_mem (t : Term) (rows : Int) (r : List Glyph)
    (h : r ∈ (resizeSlide t rows).lines) : r ∈ t.lines := by
  rw [resizeSlide_lines] at h
  split_ifs at h
  · rcases mem_goCopy _ _ _ h with h1 | h1
    · exact h1
    · exact List.drop_subset _ _ (List.take_subset _ _ h1)
  · exact h

theorem resizeSlide_altLines_mem (t : Term) (rows : Int) (r : List Glyph)
    (h : r ∈ (resizeSlide t rows).altLines) : r ∈ t.altLines := by
  rw [resizeSlide_altLines] at h
  split_ifs at h
  · rcases mem_goCopy _ _ _ h with h1 | h1
    · exact h1
    · exact List.drop_subset _ _ (List.take_subset _ _ h1)
  · exact h

/-- Row y of the slid grid is row y + slide of the old grid, where
slide = max s 0 and s is positive only when the cursor would fall off. -/
theorem lookupD_slide {α : Type} (l : List α) (d : α) (s rows y : Int)
    (hy0 : 0 ≤ y) (hyr : y < rows)
    (hsr : s + rows ≤ Int.ofNat l.length) :
    lookupD (if s > 0 then goCopy l (goSlice l s (s + rows)) else l) y.toNat d =
      lookupD l (y + max s 0).toNat d := by
  simp only [Int.ofNat_eq_coe] at hsr
  by_cases hs : s > 0
  · rw [if_pos hs]
    have hlen : (goSlice l s (s + rows)).length = rows.toNat := by
      unfold goSlice
      rw [List.length_take, List.length_drop]
      omega
    rw [lookupD_goCopy, hlen, if_pos ⟨by omega, by omega⟩]
    unfold goSlice
    rw [lookupD_take, if_pos (by omega), lookupD_drop,
        show s.toNat + y.toNat = (y + max s 0).toNat from by omega]
  · rw [if_neg hs, show (y + max s 0).toNat = y.toNat from by omega]

theorem resizePass_lines (t : Term) (mc mr : Int) :
    (resizePass t mc mr).lines = t.altLines := by
  unfold resizePass
  dsimp only
  split_ifs <;> rfl

theorem resizePass_cols (t : Term) (mc mr : Int) :
    (resizePass t mc mr).cols = t.cols := by
  unfold resizePass; dsimp only; split_ifs <;> rfl

theorem resizePass_rows (t : Term) (mc mr : Int) :
    (resizePass t mc mr).rows = t.rows := by
  unfold resizePass; dsimp only; split_ifs <;> rfl

theorem resizePass_cur (t : Term) (mc mr : Int) :
    (resizePass t mc mr).cur = t.cur := by
  unfold resizePass; dsimp only; split_ifs <;> rfl

/-- The two clears plus screen swap of one resizePass iteration, seen from
the grid that ends up as altLines: old cell on the overlap rectangle, blank
with the current attribute on the newly exposed region. -/
theorem clears_get (t : Term) (mc mr x y : Int)
    (hmc0 : 0 ≤ mc) (hmcc : mc ≤ t.cols) (hmr1 : 1 ≤ mr) (hmrr : mr ≤ t.rows)
    (hx0 : 0 ≤ x) (hx1 : x < t.cols) (hy0 : 0 ≤ y) (hy1 : y < t.rows)
    (hlen : t.lines.length = t.rows.toNat)
    (hrows : ∀ r ∈ t.lines, r.length = t.cols.toNat) :
    gridGet (resizePass t mc mr).altLines x y =
      (if x < mc ∧ y < mr then gridGet t.lines x y
       else { t.cur.attr with c := 0x20 }) := by
  have hyl : y.toNat < t.lines.length := by rw [hlen]; omega
  have hxl : x.toNat < (lookupD t.lines y.toNat []).length := by
    rw [hrows _ (lookupD_mem _ _ _ hyl)]; omega
  have hsw : ∀ z : Term, (swapScreen z).altLines = z.lines := fun z => rfl
  unfold resizePass
  dsimp only
  rw [hsw]
  by_cases h1 : mc < t.cols ∧ 0 < mr
  · rw [if_pos h1]
    have hcc : (clear t mc 0 (t.cols - 1) (mr - 1)).cols = t.cols := rfl
    have hrr : (clear t mc 0 (t.cols - 1) (mr - 1)).rows = t.rows := rfl
    have hcur : (clear t mc 0 (t.cols - 1) (mr - 1)).cur = t.cur := rfl
    rw [hcc, hrr]
    by_cases h2 : 0 < t.cols ∧ mr < t.rows
    · rw [if_pos h2]
      rw [gridGet_clear (clear t mc 0 (t.cols - 1) (mr - 1)) 0 mr (t.cols - 1)
            (t.rows - 1) x y (le_refl 0) (by omega) (by rw [hcc]) (by omega)
            (by omega) (by rw [hrr]) hx0 hy0
            (by rw [clear_lines_length]; exact hyl)
            (by rw [clear_rows t mc 0 (t.cols - 1) (mr - 1) t.cols.toNat hrows _
                  (lookupD_mem _ _ _ (by rw [clear_lines_length]; exact hyl))]
                omega)]
      rw [gridGet_clear t mc 0 (t.cols - 1) (mr - 1) x y hmc0 (by omega) (by omega)
            (le_refl 0) (by omega) (by omega) hx0 hy0 hyl hxl]
      rw [hcur]
      split_ifs <;> first | rfl | omega
    · rw [if_neg h2]
      rw [gridGet_clear t mc 0 (t.cols - 1) (mr - 1) x y hmc0 (by omega) (by omega)
            (le_refl 0) (by omega) (by omega) hx0 hy0 hyl hxl]
      split_ifs <;> first | rfl | omega
  · rw [if_neg h1]
    by_cases h2 : 0 < t.cols ∧ mr < t.rows
    · rw [if_pos h2]
      rw [gridGet_clear t 0 mr (t.cols - 1) (t.rows - 1) x y (le_refl 0) (by omega)
            (by omega) (by omega) (by omega) (by omega) hx0 hy0 hyl hxl]
      split_ifs <;> first | rfl | omega
    · rw [if_neg h2]
      rw [if_pos ⟨by omega, by omega⟩]

/-- C4: for a resize to positive dimensions, every cell of the overlap
region (x below min of old and new column counts, y below min of old and
new row counts) of the primary grid holds the old primary cell of the same
column and of the row shifted down by the slide (positive only when the
cursor would fall off the bottom), and likewise for the alternate grid;
every in-bounds cell outside the overlap is a blank (space) carrying the
current attribute, in both grids. -/
theorem c4_resize_overlap (t : Term) (cols rows x y : Int) (hI : Inv t)
    (hc : 1 ≤ cols) (hr : 1 ≤ rows)
    (hx0 : 0 ≤ x) (hx1 : x < cols) (hy0 : 0 ≤ y) (hy1 : y < rows) :
    (x < min cols t.cols ∧ y < min rows t.rows →
      gridGet (Resize t cols rows).lines x y =
        gridGet t.lines x (y + max (t.cur.y - rows + 1) 0) ∧
      gridGet (Resize t cols rows).altLines x y =
        gridGet t.altLines x (y + max (t.cur.y - rows + 1) 0)) ∧
    (¬(x < min cols t.cols ∧ y < min rows t.rows) →
      gridGet (Resize t cols rows).lines x y = { t.cur.attr with c := 0x20 } ∧
      gridGet (Resize t cols rows).altLines x y = { t.cur.attr with c := 0x20 }) := by
  obtain ⟨⟨hgc, hgr, _, _, _⟩, ⟨d1, d2, d3, d4, _, _⟩, ⟨_, _, hcy0, hcy1, _⟩⟩ := hI
  by_cases heq : cols = t.cols ∧ rows = t.rows
  · have hR : Resize t cols rows = t := by unfold Resize; rw [if_pos heq]
    obtain ⟨he1, he2⟩ := heq
    have hsl : y + max (t.cur.y - rows + 1) 0 = y := by omega
    constructor
    · intro _
      rw [hR, hsl]
      exact ⟨rfl, rfl⟩
    · intro hn
      exact absurd ⟨by omega, by omega⟩ hn
  · have h1 : ¬(cols < 1 ∨ rows < 1) := by omega
    have hres : Resize t cols rows =
        resizePass
          (resizePass
            (moveTo (setScroll (resizeGrids (resizeSlide t rows) cols rows) 0 (rows - 1))
              (setScroll (resizeGrids (resizeSlide t rows) cols rows) 0 (rows - 1)).cur.x
              (setScroll (resizeGrids (resizeSlide t rows) cols rows) 0 (rows - 1)).cur.y)
            (min cols (resizeSlide t rows).cols) (min rows (resizeSlide t rows).rows))
          (min cols (resizeSlide t rows).cols) (min rows (resizeSlide t rows).rows) := by
      unfold Resize
      rw [if_neg heq, if_neg h1]
    rw [hres]
    set t1 := resizeSlide t rows with ht1
    set mc := min cols t1.cols with hmc
    set mr := min rows t1.rows with hmr
    set t2 := resizeGrids t1 cols rows with ht2
    set t3 := setScroll t2 0 (rows - 1) with ht3
    set t4 := moveTo t3 t3.cur.x t3.cur.y with ht4
    set t5 := resizePass t4 mc mr with ht5
    have h1c : t1.cols = t.cols := by rw [ht1]; exact resizeSlide_cols t rows
    have h1r : t1.rows = t.rows := by rw [ht1]; exact resizeSlide_rows t rows
    have h1len : t1.lines.length = t.rows.toNat := by
      rw [ht1, resizeSlide_lines_length, d1]
    have h1alen : t1.altLines.length = t.rows.toNat := by
      rw [ht1, resizeSlide_altLines_length, d3]
    have h1rows : ∀ r ∈ t1.lines, r.length = t.cols.toNat := by
      intro r hrm
      rw [ht1] at hrm
      exact d2 r (resizeSlide_lines_mem t rows r hrm)
    have h1arows : ∀ r ∈ t1.altLines, r.length = t.cols.toNat := by
      intro r hrm
      rw [ht1] at hrm
      exact d4 r (resizeSlide_altLines_mem t rows r hrm)
    have h4c : t4.cols = cols := by rw [ht4, ht3, ht2]; rfl
    have h4r : t4.rows = rows := by rw [ht4, ht3, ht2]; rfl
    have h4attr : t4.cur.attr = t.cur.attr := by
      rw [ht4, ht3, ht2, ht1]
      show (resizeSlide t rows).cur.attr = t.cur.attr
      rw [resizeSlide_cur]
    have h4lines : t4.lines = overlapGrid t1.lines cols rows mr := by
      rw [ht4, ht3, ht2, hmr]
      rfl
    have h4alt : t4.altLines = overlapGrid t1.altLines cols rows mr := by
      rw [ht4, ht3, ht2, hmr]
      rfl
    have hmcc : 0 ≤ mc ∧ mc ≤ cols ∧ mc ≤ t.cols := by rw [hmc, h1c]; omega
    have hmrr : 1 ≤ mr ∧ mr ≤ rows ∧ mr ≤ t.rows := by rw [hmr, h1r]; omega
    have h4len : t4.lines.length = rows.toNat := by rw [h4lines, overlapGrid_length]
    have h4rows : ∀ r ∈ t4.lines, r.length = cols.toNat := by
      intro r hrm
      rw [h4lines] at hrm
      exact overlapGrid_rows _ _ _ _ r hrm
    have h5c : t5.cols = cols := by rw [ht5, resizePass_cols, h4c]
    have h5r : t5.rows = rows := by rw [ht5, resizePass_rows, h4r]
    have h5attr : t5.cur.attr = t.cur.attr := by rw [ht5, resizePass_cur, h4attr]
    have h5lines : t5.lines = t4.altLines := by rw [ht5, resizePass_lines]
    have h5len : t5.lines.length = rows.toNat := by
      rw [h5lines, h4alt, overlapGrid_length]
    have h5rows : ∀ r ∈ t5.lines, r.length = cols.toNat := by
      intro r hrm
      rw [h5lines, h4alt] at hrm
      exact overlapGrid_rows _ _ _ _ r hrm
    have hfin1 : gridGet (resizePass t5 mc mr).lines x y =
        (if x < mc ∧ y < mr then gridGet t4.lines x y
         else { t4.cur.attr with c := 0x20 }) := by
      rw [resizePass_lines, ht5]
      exact clears_get t4 mc mr x y hmcc.1 (by rw [h4c]; exact hmcc.2.1) hmrr.1
        (by rw [h4r]; exact hmrr.2.1) hx0 (by rw [h4c]; exact hx1) hy0
        (by rw [h4r]; exact hy1) (by rw [h4len, h4r])
        (by simp only [h4c]; exact h4rows)
    have hfin2 : gridGet (resizePass t5 mc mr).altLines x y =
        (if x < mc ∧ y < mr then gridGet t5.lines x y
         else { t5.cur.attr with c := 0x20 }) :=
      clears_get t5 mc mr x y hmcc.1 (by rw [h5c]; exact hmcc.2.1) hmrr.1
        (by rw [h5r]; exact hmrr.2.1) hx0 (by rw [h5c]; exact hx1) hy0
        (by rw [h5r]; exact hy1) (by rw [h5len, h5r])
        (by simp only [h5c]; exact h5rows)
    have hov1 : x < mc ∧ y < mr →
        gridGet t4.lines x y = gridGet t.lines x (y + max (t.cur.y - rows + 1) 0) := by
      rintro ⟨hxm, hym⟩
      have hymr : y < t.rows := by
        have := hmrr.2.2
        omega
      have hrl : (lookupD t1.lines y.toNat []).length = t.cols.toNat :=
        h1rows _ (lookupD_mem _ _ _ (by rw [h1len]; omega))
      rw [h4lines, gridGet_overlapGrid t1.lines cols rows mr x y hx0 hx1 hy0 hy1,
          if_pos ⟨hym, by rw [hrl]; have := hmcc.2.2; omega⟩,
          gridGet_eq_lookupD _ _ _ hx0 hy0, ht1, resizeSlide_lines,
          lookupD_slide t.lines [] (t.cur.y - rows + 1) rows y hy0 hy1
            (by simp only [Int.ofNat_eq_coe, d1]; omega),
          ← gridGet_eq_lookupD t.lines x (y + max (t.cur.y - rows + 1) 0) hx0 (by omega)]
    have hov2 : x < mc ∧ y < mr →
        gridGet t5.lines x y = gridGet t.altLines x (y + max (t.cur.y - rows + 1) 0) := by
      rintro ⟨hxm, hym⟩
      have hymr : y < t.rows := by
        have := hmrr.2.2
        omega
      have hrl : (lookupD t1.altLines y.toNat []).length = t.cols.toNat :=
        h1arows _ (lookupD_mem _ _ _ (by rw [h1alen]; omega))
      rw [h5lines, h4alt, gridGet_overlapGrid t1.altLines cols rows mr x y hx0 hx1 hy0 hy1,
          if_pos ⟨hym, by rw [hrl]; have := hmcc.2.2; omega⟩,
          gridGet_eq_lookupD _ _ _ hx0 hy0, ht1, resizeSlide_altLines,
          lookupD_slide t.altLines [] (t.cur.y - rows + 1) rows y hy0 hy1
            (by simp only [Int.ofNat_eq_coe, d3]; omega),
          ← gridGet_eq_lookupD t.altLines x (y + max (t.cur.y - rows + 1) 0) hx0 (by omega)]
    constructor
    · intro hov
      have hxm : x < mc := by rw [hmc, h1c]; exact hov.1
      have hym : y < mr := by rw [hmr, h1r]; exact hov.2
      constructor
      · rw [hfin1, if_pos ⟨hxm, hym⟩]
        exact hov1 ⟨hxm, hym⟩
      · rw [hfin2, if_pos ⟨hxm, hym⟩]
        exact hov2 ⟨hxm, hym⟩
    · intro hn
      have hnm : ¬(x < mc ∧ y < mr) := by rw [hmc, hmr, h1c, h1r]; exact hn
      constructor
      · rw [hfin1, if_neg hnm, h4attr]
      · rw [hfin2, if_neg hnm, h5attr]

/-- C4 witness: growing a 3-by-2 terminal holding "Hi" to 5-by-4 keeps the
overlap cell (0,0) and blanks the new cell (4,3). -/
theorem c4_resize_overlap_witness :
    gridGet (Resize (feed (newTerm 3 2) [72, 105]) 5 4).lines 0 0 =
      gridGet (feed (newTerm 3 2) [72, 105]).lines 0
        (0 + max ((feed (newTerm 3 2) [72, 105]).cur.y - 4 + 1) 0) ∧
    gridGet (Resize (feed (newTerm 3 2) [72, 105]) 5 4).lines 4 3 =
      { (feed (newTerm 3 2) [72, 105]).cur.attr with c := 0x20 } :=
  ⟨((c4_resize_overlap (feed (newTerm 3 2) [72, 105]) 5 4 0 0 (by decide) (by decide)
      (by decide) (by decide) (by decide) (by decide) (by decide)).1 (by decide)).1,
   ((c4_resize_overlap (feed (newTerm 3 2) [72, 105]) 5 4 4 3 (by decide) (by decide)
      (by decide) (by decide) (by decide) (by decide) (by decide)).2 (by decide)).1⟩

/-- C1 witness at a concrete size and stream. -/
theorem c1_cursor_in_bounds_witness :
    0 ≤ (feed (newTerm 3 2) [72, 105, 13, 10]).cur.x ∧
    (feed (newTerm 3 2) [72, 105, 13, 10]).cur.x < 3 ∧
    0 ≤ (feed (newTerm 3 2) [72, 105, 13, 10]).cur.y ∧
    (feed (newTerm 3 2) [72, 105, 13, 10]).cur.y < 2 ∧
    ((feed (newTerm 3 2) [72, 105, 13, 10]).cur.origin = true →
      (feed (newTerm 3 2) [72, 105, 13, 10]).top ≤
        (feed (newTerm 3 2) [72, 105, 13, 10]).cur.y ∧
      (feed (newTerm 3 2) [72, 105, 13, 10]).cur.y ≤
        (feed (newTerm 3 2) [72, 105, 13, 10]).bottom) :=
  c1_cursor_in_bounds 3 2 (by omega) (by omega) [72, 105, 13, 10]

end Terminal
